import Mathlib

/-!
Verification of the Tessrax Proceduralist audit-ledger core against its
natural-language specification.

The Python sources are shallowly embedded: hex digests and canonical JSON are
Lean `String`s, byte strings are `List Nat` (each element < 256), machine
integers are `Nat`/`Int`, and fallible code returns `Except`.  `hashlib.sha256`
is implemented concretely (FIPS 180-4) so that counterexamples can be settled
by evaluation.
-/

set_option maxRecDepth 200000

namespace Tessrax

/-! ## Byte and string helpers -/

/-- Truncate to a 32-bit word, mirroring Python's implicit 32-bit arithmetic
inside `hashlib`'s reference semantics. -/
def w32 (n : Nat) : Nat := n % 4294967296

/-- Right-rotation of a 32-bit word by `k`. -/
def rotr (k n : Nat) : Nat := w32 ((n >>> k) ||| (n <<< (32 - k)))

/-- Decimal digits of a natural number, fuel-structured so the kernel can
evaluate it (`fuel ≥ n` suffices since `n / 10 < n` for `n ≥ 10`). -/
def natDigitsAux : Nat → Nat → List Char
  | 0, n => [Char.ofNat (48 + n % 10)]
  | fuel + 1, n =>
    if n < 10 then [Char.ofNat (48 + n)]
    else natDigitsAux fuel (n / 10) ++ [Char.ofNat (48 + n % 10)]

/-- Decimal rendering of a natural number (Python `str` on a non-negative
int). -/
def natDigits (n : Nat) : List Char := natDigitsAux n n

def natStr (n : Nat) : String := String.mk (natDigits n)

/-- Python `str` on an int (possibly negative). -/
def intStr (i : Int) : String :=
  if i < 0 then "-" ++ natStr i.natAbs else natStr i.natAbs

/-- One lowercase hex digit. -/
def hexChar (n : Nat) : Char := Char.ofNat (if n < 10 then 48 + n else 87 + n)

/-- Two lowercase hex digits of one byte. -/
def byteHexChars (b : Nat) : List Char := [hexChar (b / 16), hexChar (b % 16)]

/-- Lowercase hex of a byte string (Python `bytes.hex()` /
`hashlib.sha256(...).hexdigest()` formatting). -/
def bytesHex (bs : List Nat) : String :=
  String.mk (bs.foldr (fun b acc => byteHexChars b ++ acc) [])

/-- UTF-8 encoding of one character. -/
def utf8Char (c : Char) : List Nat :=
  let n := c.toNat
  if n < 128 then [n]
  else if n < 2048 then [192 + n / 64, 128 + n % 64]
  else if n < 65536 then [224 + n / 4096, 128 + (n / 64) % 64, 128 + n % 64]
  else [240 + n / 262144, 128 + (n / 4096) % 64, 128 + (n / 64) % 64, 128 + n % 64]

/-- UTF-8 encoding of a string (Python `str.encode("utf-8")`). -/
def utf8 (s : String) : List Nat := (s.data.map utf8Char).flatten

/-! ## SHA-256 (FIPS 180-4), the concrete semantics of `hashlib.sha256` -/

def shaCh (x y z : Nat) : Nat := (x &&& y) ^^^ ((x ^^^ 4294967295) &&& z)

def shaMaj (x y z : Nat) : Nat := (x &&& y) ^^^ (x &&& z) ^^^ (y &&& z)

def bigSigma0 (x : Nat) : Nat := rotr 2 x ^^^ rotr 13 x ^^^ rotr 22 x

def bigSigma1 (x : Nat) : Nat := rotr 6 x ^^^ rotr 11 x ^^^ rotr 25 x

def smallSigma0 (x : Nat) : Nat := rotr 7 x ^^^ rotr 18 x ^^^ (x >>> 3)

def smallSigma1 (x : Nat) : Nat := rotr 17 x ^^^ rotr 19 x ^^^ (x >>> 10)

def shaK : List Nat :=
  [1116352408, 1899447441, 3049323471, 3921009573, 961987163, 1508970993,
   2453635748, 2870763221, 3624381080, 310598401, 607225278, 1426881987,
   1925078388, 2162078206, 2614888103, 3248222580, 3835390401, 4022224774,
   264347078, 604807628, 770255983, 1249150122, 1555081692, 1996064986,
   2554220882, 2821834349, 2952996808, 3210313671, 3336571891, 3584528711,
   113926993, 338241895, 666307205, 773529912, 1294757372, 1396182291,
   1695183700, 1986661051, 2177026350, 2456956037, 2730485921, 2820302411,
   3259730800, 3345764771, 3516065817, 3600352804, 4094571909, 275423344,
   430227734, 506948616, 659060556, 883997877, 958139571, 1322822218,
   1537002063, 1747873779, 1955562222, 2024104815, 2227730452, 2361852424,
   2428436474, 2756734187, 3204031479, 3329325298]

/-- Big-endian bytes of a 64-bit quantity. -/
def be64 (n : Nat) : List Nat :=
  [(n >>> 56) &&& 255, (n >>> 48) &&& 255, (n >>> 40) &&& 255, (n >>> 32) &&& 255,
   (n >>> 24) &&& 255, (n >>> 16) &&& 255, (n >>> 8) &&& 255, n &&& 255]

/-- Big-endian bytes of a 32-bit word. -/
def be32 (n : Nat) : List Nat :=
  [(n >>> 24) &&& 255, (n >>> 16) &&& 255, (n >>> 8) &&& 255, n &&& 255]

/-- SHA-256 message padding: `0x80`, zeros, then the 64-bit big-endian bit
length, to a multiple of 64 bytes. -/
def padMsg (ms : List Nat) : List Nat :=
  ms ++ [128] ++ List.replicate ((119 - ms.length % 64) % 64) 0 ++ be64 (8 * ms.length)

/-- Pack bytes into big-endian 32-bit words. -/
def toWords : List Nat → List Nat
  | a :: b :: c :: d :: rest => (a * 16777216 + b * 65536 + c * 256 + d) :: toWords rest
  | _ => []

/-- Extend the 16-word block by `fuel` schedule words. -/
def extendWords (ws : List Nat) : Nat → List Nat
  | 0 => ws
  | fuel + 1 =>
    let n := ws.length
    extendWords
      (ws ++ [w32 (smallSigma1 (ws.getD (n - 2) 0) + ws.getD (n - 7) 0 +
        smallSigma0 (ws.getD (n - 15) 0) + ws.getD (n - 16) 0)]) fuel

structure H8 where
  a : Nat
  b : Nat
  c : Nat
  d : Nat
  e : Nat
  f : Nat
  g : Nat
  h : Nat

def shaH0 : H8 :=
  ⟨1779033703, 3144134277, 1013904242, 2773480762,
   1359893119, 2600822924, 528734635, 1541459225⟩

def roundStep (st : H8) (k w : Nat) : H8 :=
  let t1 := w32 (st.h + bigSigma1 st.e + shaCh st.e st.f st.g + k + w)
  let t2 := w32 (bigSigma0 st.a + shaMaj st.a st.b st.c)
  ⟨w32 (t1 + t2), st.a, st.b, st.c, w32 (st.d + t1), st.e, st.f, st.g⟩

def compress (st : H8) (block : List Nat) : H8 :=
  let ws := extendWords (toWords block) 48
  let r := (shaK.zip ws).foldl (fun s kw => roundStep s kw.1 kw.2) st
  ⟨w32 (st.a + r.a), w32 (st.b + r.b), w32 (st.c + r.c), w32 (st.d + r.d),
   w32 (st.e + r.e), w32 (st.f + r.f), w32 (st.g + r.g), w32 (st.h + r.h)⟩

/-- Split into 64-byte blocks, fuel-structured so the kernel can evaluate it
(`fuel ≥ l.length` suffices since `drop 64` shortens a nonempty list). -/
def chunk64Aux : Nat → List Nat → List (List Nat)
  | 0, _ => []
  | fuel + 1, l => if l = [] then [] else l.take 64 :: chunk64Aux fuel (l.drop 64)

/-- Split into 64-byte blocks. -/
def chunk64 (l : List Nat) : List (List Nat) := chunk64Aux l.length l

/-- SHA-256 digest (32 bytes) of a byte string. -/
def sha256Bytes (ms : List Nat) : List Nat :=
  let fin := (chunk64 (padMsg ms)).foldl compress shaH0
  be32 fin.a ++ be32 fin.b ++ be32 fin.c ++ be32 fin.d ++
    be32 fin.e ++ be32 fin.f ++ be32 fin.g ++ be32 fin.h

/-- Source `hashlib.sha256(s.encode("utf-8")).hexdigest()`. -/
def sha256Hex (s : String) : String := bytesHex (sha256Bytes (utf8 s))

/-! ## Python value universe

JSON-encodable Python values, as consumed by `tessrax.core.serialization`.
Floats are embedded on the subdomain where the double is exactly the short
decimal its `repr` shows (which covers every literal the claims mention, e.g.
`-0.0`, `0.0`, `1.0`, `3.25`): a `PFloat` stores the sign and the decimal
digits of `repr(value)`, so `str`/`repr` and `Decimal(str(value))` are exact.
All floats in this universe are finite, so `math.isfinite` guards are
vacuously true here. `datetime` leaves are outside this universe (no claim
touches them). -/

instance {ε α : Type} [DecidableEq ε] [DecidableEq α] : DecidableEq (Except ε α) :=
  fun a b =>
    match a, b with
    | .ok x, .ok y =>
      if h : x = y then isTrue (by rw [h]) else isFalse (fun hh => h (Except.ok.inj hh))
    | .error x, .error y =>
      if h : x = y then isTrue (by rw [h]) else isFalse (fun hh => h (Except.error.inj hh))
    | .ok _, .error _ => isFalse (fun hh => Except.noConfusion hh)
    | .error _, .ok _ => isFalse (fun hh => Except.noConfusion hh)

/-- A Python float in `repr`-canonical decimal form: sign, integer part and
fractional digits (Python float `repr` always shows at least one fractional
digit for these moderate magnitudes). `⟨true, 0, ['0']⟩` is `-0.0`. -/
structure PFloat where
  neg : Bool
  ip : Nat
  frac : List Char
  deriving DecidableEq

/-- A `decimal.Decimal`: sign, coefficient and exponent, value
`(-1)^neg * coeff * 10^exp`. -/
structure PDec where
  neg : Bool
  coeff : Nat
  exp : Int
  deriving DecidableEq

/-- Python `repr(float)` (also `str`) on the embedded subdomain. -/
def floatRepr (f : PFloat) : String :=
  (if f.neg then "-" else "") ++ natStr f.ip ++ "." ++ String.mk f.frac

def digitVal (c : Char) : Nat := c.toNat - 48

def digitsVal (ds : List Char) : Nat := ds.foldl (fun acc c => 10 * acc + digitVal c) 0

/-- Source `Decimal(str(value))` for a float: coefficient from all the digits,
exponent from the fractional length. -/
def decOfFloat (f : PFloat) : PDec :=
  ⟨f.neg, f.ip * 10 ^ f.frac.length + digitsVal f.frac, -(f.frac.length : Int)⟩

/-- Strip trailing zero digits off the coefficient (fuel-structured). -/
def decStrip : Nat → Nat → Int → Nat × Int
  | 0, c, e => (c, e)
  | fuel + 1, c, e =>
    if c ≠ 0 ∧ c % 10 = 0 then decStrip fuel (c / 10) (e + 1) else (c, e)

/-- Source `Decimal.normalize()`: zero collapses to exponent 0 (sign kept, as in
`Decimal("-0")`), otherwise trailing zeros move into the exponent. -/
def decNormalize (d : PDec) : PDec :=
  if d.coeff = 0 then ⟨d.neg, 0, 0⟩
  else
    let ce := decStrip d.coeff d.coeff d.exp
    ⟨d.neg, ce.1, ce.2⟩

/-- Decimal digits of `m` left-padded with zeros to `e` digits. -/
def padDigits (e m : Nat) : List Char :=
  List.replicate (e - (natDigits m).length) (Char.ofNat 48) ++ natDigits m

/-- Source `float(decimal_value)` on the exactly-representable subdomain, rendered in
`repr`-canonical form. -/
def floatOfDec (d : PDec) : PFloat :=
  if d.coeff = 0 then ⟨d.neg, 0, [Char.ofNat 48]⟩
  else if 0 ≤ d.exp then ⟨d.neg, d.coeff * 10 ^ d.exp.toNat, [Char.ofNat 48]⟩
  else
    let e := d.exp.natAbs
    ⟨d.neg, d.coeff / 10 ^ e, padDigits e (d.coeff % 10 ^ e)⟩

/-- Source `serialization._normalize_float`: decimal round-trip through
`Decimal(str(value)).normalize()`; an exact zero (hence also `-0.0`) returns
`0.0`. -/
def normFloat (f : PFloat) : PFloat :=
  let dn := decNormalize (decOfFloat f)
  if dn.coeff = 0 then ⟨false, 0, [Char.ofNat 48]⟩ else floatOfDec dn

/-- The `Decimal` branch of `serialization._normalize`: `float(value)` then
`_normalize_float` (the finiteness guard cannot fire on this finite
subdomain). -/
def normDec (d : PDec) : PFloat := normFloat (floatOfDec d)

mutual
inductive PyVal where
  | vstr (s : String)
  | vint (n : Int)
  | vbool (b : Bool)
  | vnone
  | vfloat (f : PFloat)
  | vdec (d : PDec)
  | vlist (xs : PyList)
  | vdict (es : PyEntries)
  deriving DecidableEq
inductive PyList where
  | nil
  | cons (x : PyVal) (xs : PyList)
  deriving DecidableEq
inductive PyEntries where
  | nil
  | cons (k : String) (v : PyVal) (es : PyEntries)
  deriving DecidableEq
end

def PyEntries.keys : PyEntries → List String
  | .nil => []
  | .cons k _ es => k :: es.keys

/-! ## Canonical JSON (`serialization.canonical_json`) -/

/-- Source `json.dumps` escaping of one character (`ensure_ascii=False`). -/
def jsonEscapeChar (c : Char) : List Char :=
  if c = Char.ofNat 34 then [Char.ofNat 92, Char.ofNat 34]
  else if c = Char.ofNat 92 then [Char.ofNat 92, Char.ofNat 92]
  else if c = Char.ofNat 10 then [Char.ofNat 92, Char.ofNat 110]
  else if c = Char.ofNat 9 then [Char.ofNat 92, Char.ofNat 116]
  else if c = Char.ofNat 13 then [Char.ofNat 92, Char.ofNat 114]
  else if c = Char.ofNat 8 then [Char.ofNat 92, Char.ofNat 98]
  else if c = Char.ofNat 12 then [Char.ofNat 92, Char.ofNat 102]
  else if c.toNat < 32 then
    [Char.ofNat 92, Char.ofNat 117, Char.ofNat 48, Char.ofNat 48,
     hexChar (c.toNat / 16), hexChar (c.toNat % 16)]
  else [c]

/-- JSON string literal with double quotes. -/
def jsonQuote (s : String) : String :=
  String.mk ([Char.ofNat 34] ++ (s.data.map jsonEscapeChar).flatten ++ [Char.ofNat 34])

/-- Code-point lexicographic comparison of character lists — exactly how
Python compares `str` values. -/
def charsLt : List Char → List Char → Bool
  | [], [] => false
  | [], _ :: _ => true
  | _ :: _, [] => false
  | a :: as, b :: bs =>
    if a.toNat < b.toNat then true
    else if b.toNat < a.toNat then false
    else charsLt as bs

/-- Python `str` strict comparison. -/
def strLt (a b : String) : Bool := charsLt a.data b.data

/-- Insertion step for sorting rendered object members by key
(`json.dumps(..., sort_keys=True)`). -/
def insertPair (p : String × String) : List (String × String) → List (String × String)
  | [] => [p]
  | q :: qs => if strLt p.1 q.1 then p :: q :: qs else q :: insertPair p qs

def sortPairs : List (String × String) → List (String × String)
  | [] => []
  | p :: ps => insertPair p (sortPairs ps)

def renderPair (p : String × String) : String := jsonQuote p.1 ++ ":" ++ p.2

def wrapObj (s : String) : String :=
  String.mk [Char.ofNat 123] ++ s ++ String.mk [Char.ofNat 125]

mutual
/-- Source `json.dumps(value, sort_keys=True, separators=(",", ":"),
ensure_ascii=False)` on a materialized payload; `Decimal` is not JSON
serializable and raises `TypeError`.  `json.dumps` sorts each object's items
and then renders the member values in that order; here each member value is
rendered first and the `(key, rendered)` pairs are sorted afterwards, which
yields the same text because rendering neither reads nor changes keys, and
the same generic error because the only failing leaf type is `Decimal`. -/
def dumpVal : PyVal → Except String String
  | .vstr s => .ok (jsonQuote s)
  | .vint n => .ok (intStr n)
  | .vbool b => .ok (if b then "true" else "false")
  | .vnone => .ok "null"
  | .vfloat f => .ok (floatRepr f)
  | .vdec _ => .error "TypeError: Object of type Decimal is not JSON serializable"
  | .vlist xs => do
    let parts ← dumpList xs
    .ok ("[" ++ String.intercalate "," parts ++ "]")
  | .vdict es => do
    let pairs ← dumpEntries es
    .ok (wrapObj (String.intercalate "," ((sortPairs pairs).map renderPair)))
def dumpList : PyList → Except String (List String)
  | .nil => .ok []
  | .cons x xs => do
    let s ← dumpVal x
    let rest ← dumpList xs
    .ok (s :: rest)
def dumpEntries : PyEntries → Except String (List (String × String))
  | .nil => .ok []
  | .cons k v es => do
    let s ← dumpVal v
    let rest ← dumpEntries es
    .ok ((k, s) :: rest)
end

/-- Source `serialization.canonical_json` (the `_materialize_for_json` pass is the
identity on this universe: keys are already strings and there are no frozen
payloads or tuples distinct from lists). -/
def canonicalJson (v : PyVal) : Except String String := dumpVal v

/-! ## Normalization (`serialization._normalize` / `normalize_payload`) -/

/-- Insert one entry into a key-sorted entry list (keys compared as Python
compares `str`, by code points). -/
def insertEntry (k : String) (v : PyVal) : PyEntries → PyEntries
  | .nil => .cons k v .nil
  | .cons k2 v2 es =>
    if strLt k k2 then .cons k v (.cons k2 v2 es) else .cons k2 v2 (insertEntry k v es)

/-- Sort entries by key (`sorted(value, key=str)`; keys here are already
strings). -/
def sortEntries : PyEntries → PyEntries
  | .nil => .nil
  | .cons k v es => insertEntry k v (sortEntries es)

mutual
/-- Source `serialization._normalize`.  The source sorts a mapping's keys and then
normalizes each value in sorted order; here the values are normalized first
and the entries sorted afterwards, which is the same dictionary because the
sort compares only keys and normalization keeps every key in place. -/
def normVal : PyVal → PyVal
  | .vdict es => .vdict (sortEntries (normEntries es))
  | .vlist xs => .vlist (normList xs)
  | .vfloat f => .vfloat (normFloat f)
  | .vdec d => .vfloat (normDec d)
  | .vstr s => .vstr s
  | .vint n => .vint n
  | .vbool b => .vbool b
  | .vnone => .vnone
def normList : PyList → PyList
  | .nil => .nil
  | .cons x xs => .cons (normVal x) (normList xs)
def normEntries : PyEntries → PyEntries
  | .nil => .nil
  | .cons k v es => .cons k (normVal v) (normEntries es)
end

/-- Source `serialization.normalize_payload` on a mapping. -/
def normalizePayload (es : PyEntries) : PyEntries := sortEntries (normEntries es)

/-- Source `serialization.canonical_payload_hash`: a plain mapping (no
`__tessrax_normalized__` marker) is normalized and then hashed. -/
def canonicalPayloadHash (es : PyEntries) : Except String String := do
  let s ← canonicalJson (.vdict (normalizePayload es))
  .ok (sha256Hex s)

/-! ## Merkle accumulator (`tessrax/ledger/merkle.py`) -/

/-- Source `EMPTY_ROOT = sha256(b"TESSRAX|MERKLE|EMPTY").hexdigest()`. -/
def EMPTY_ROOT : String := sha256Hex "TESSRAX|MERKLE|EMPTY"

/-- Source `merkle._hash_leaf`. -/
def hashLeaf (h : String) : String := sha256Hex ("leaf:" ++ h)

/-- Source `merkle._hash_node`. -/
def hashNode (l r : String) : String := sha256Hex ("node:" ++ l ++ ":" ++ r)

/-- Source `merkle.MerkleState`: entry count, peak digests (ascending height), and
the last appended leaf hash. -/
structure MerkleState where
  entry_count : Nat
  peaks : List String
  last_leaf_hash : Option String
  deriving DecidableEq

def MerkleState.empty : MerkleState := ⟨0, [], none⟩

/-- Source `MerkleState.root`: the empty constant for no peaks, otherwise the fold
`accumulator = peaks[0]; for peak in peaks[1:]: accumulator =
_hash_node(accumulator, peak)`. -/
def MerkleState.root (s : MerkleState) : String :=
  match s.peaks with
  | [] => EMPTY_ROOT
  | p :: rest => rest.foldl hashNode p

/-- The carry loop of `MerkleState.apply_leaf`: while the counter is odd and
peaks remain, pop the top (last) peak and merge it to the left of the running
node, halving the counter.  Fuel-structured on the number of peaks, which the
loop strictly consumes. -/
def merkleCarry : Nat → Nat → List String → String → List String × String
  | 0, _, peaks, node => (peaks, node)
  | fuel + 1, counter, peaks, node =>
    if counter % 2 = 1 ∧ peaks ≠ [] then
      merkleCarry fuel (counter / 2) peaks.dropLast (hashNode (peaks.getLastD "") node)
    else (peaks, node)

/-- Source `MerkleState.apply_leaf` (the `isinstance(str)` half of the guard is
enforced by typing). -/
def MerkleState.applyLeaf (s : MerkleState) (leaf : String) : Except String MerkleState :=
  if leaf.length ≠ 64 then .error "leaf_hash must be a 64-character hex string"
  else
    let pn := merkleCarry s.peaks.length s.entry_count s.peaks (hashLeaf leaf)
    .ok ⟨s.entry_count + 1, pn.1 ++ [pn.2], some leaf⟩

/-- Source `merkle.MerkleUpdate`. -/
structure MerkleUpdate where
  new_state : MerkleState
  previous_leaf_hash : Option String
  new_root : String
  deriving DecidableEq

/-- Source `MerkleAccumulator.prepare_update`: apply the leaf without persisting. -/
def prepareUpdate (s : MerkleState) (leaf : String) : Except String MerkleUpdate := do
  let ns ← s.applyLeaf leaf
  .ok ⟨ns, s.last_leaf_hash, ns.root⟩

/-! ## Epoch manager (`tessrax/ledger/epochal.py`) -/

structure EpochRec where
  epoch_id : String
  timestamp : String
  merkle_root : String
  deriving DecidableEq

/-- Contents of `epoch_state.json`: `next_epoch` counter and the
`entry_hash → record` table (a Python dict; insertion appends at the end). -/
structure EpochState where
  next_epoch : Nat
  entries : List (String × EpochRec)
  updated_at : Option String
  deriving DecidableEq

def EpochState.empty : EpochState := ⟨0, [], none⟩

/-- Association lookup on string-keyed lists (Python dict access). -/
def alistGet {α : Type} : List (String × α) → String → Option α
  | [], _ => none
  | (k, v) :: rest, key => if k == key then some v else alistGet rest key

/-- Source `f"{n:020d}"`. -/
def pad20 (n : Nat) : String :=
  let s := natStr n
  if s.length < 20 then String.mk (List.replicate (20 - s.length) (Char.ofNat 48)) ++ s else s

/-- Source `entry_hash[:16]`. -/
def take16 (s : String) : String := String.mk (s.data.take 16)

def epochIdFor (next : Nat) (entry_hash : String) : String :=
  "EPOCH-" ++ pad20 next ++ "-" ++ take16 entry_hash

/-- Source `EpochLedgerManager.record_entry`.  On a hit the stored epoch id is
returned and nothing is written; on a miss the id is assigned, the counter
increments, `updated_at` is refreshed and a snapshot file (returned here as
the optional third component: file name and the merkle state it copies) is
written. -/
def recordEntry (st : EpochState) (entry_hash timestamp : String) (ms : MerkleState)
    (now : String) : Except String (String × EpochState × Option (String × MerkleState)) :=
  if entry_hash.length ≠ 64 then .error "entry_hash must be 64 hex chars"
  else
    match alistGet st.entries entry_hash with
    | some r => .ok (r.epoch_id, st, none)
    | none =>
      let epoch_id := epochIdFor st.next_epoch entry_hash
      let st' : EpochState :=
        ⟨st.next_epoch + 1, st.entries ++ [(entry_hash, ⟨epoch_id, timestamp, ms.root⟩)], some now⟩
      .ok (epoch_id, st', some ("merkle_state-" ++ epoch_id ++ ".json", ms))

/-- Source `EpochLedgerManager.get_epoch`. -/
def getEpoch (st : EpochState) (entry_hash : String) : Except String String :=
  match alistGet st.entries entry_hash with
  | none => .error "Entry hash not found in epoch table"
  | some r => .ok r.epoch_id

/-! ## Entry hashing (`merkle._entry_body` / `merkle.compute_entry_hash`) -/

def PyEntries.lookup : PyEntries → String → Option PyVal
  | .nil, _ => none
  | .cons k v es, key => if k == key then some v else es.lookup key

def appendEntries : PyEntries → PyEntries → PyEntries
  | .nil, t => t
  | .cons k v es, t => .cons k v (appendEntries es t)

/-- The nine keys `_entry_body` keeps (note: `governance_freshness_tag` is
not among them). -/
def bodyKeys : List String :=
  ["event_type", "timestamp", "payload", "payload_hash", "audited_state_hash",
   "auditor", "key_id", "signature", "previous_entry_hash"]

/-- Source `{key: entry[key] for key in keys if key in entry}`. -/
def buildBody : List String → PyEntries → PyEntries
  | [], _ => .nil
  | k :: ks, e =>
    match e.lookup k with
    | some v => .cons k v (buildBody ks e)
    | none => buildBody ks e

/-- Source `merkle.compute_entry_hash` (raises the serializer's `TypeError` through
`Except` if the body is not JSON serializable). -/
def computeEntryHash (e : PyEntries) : Except String String := do
  let s ← canonicalJson (.vdict (buildBody bodyKeys e))
  .ok (sha256Hex s)

/-- The claim's variant of the rule: hash the signed body plus
`previous_entry_hash` *plus the `governance_freshness_tag`* (canonical JSON
sorts keys, so the position of the extra key is immaterial). -/
def computeEntryHashClaim (e : PyEntries) : Except String String := do
  let s ← canonicalJson (.vdict (buildBody (bodyKeys ++ ["governance_freshness_tag"]) e))
  .ok (sha256Hex s)

/-! ## Receipt engine (`tessrax/core/memory_engine.py`) -/

def AUDITOR_IDENTITY : String := "Tessrax Governance Kernel v16"

def CANONICAL_EVENT_TYPES : List String := ["STATE_AUDITED", "CONTRADICTION_DETECTED"]

/-- One row of the `ledger_index` SQLite table (the autoincrement `id` column
is never read back and is omitted). -/
structure IndexRow where
  ledger_offset : Nat
  event_type : String
  state_hash : String
  payload_hash : String
  timestamp : String
  merkle_root : String
  entry_hash : String
  previous_entry_hash : Option String
  deriving DecidableEq

/-- The persistent artifacts `write_receipt` touches: the JSONL log (parsed
entries plus the file's byte length, which is what `handle.tell()` reports at
append time), the index table, and the Merkle state file. -/
structure World where
  ledgerEntries : List PyEntries
  ledgerBytes : Nat
  index : List IndexRow
  merkle : MerkleState
  deriving DecidableEq

def World.empty : World := ⟨[], 0, [], MerkleState.empty⟩

/-- External collaborators of `write_receipt`: the active key pair from the
registry (`key_id` plus Ed25519 signing as a function from the canonical
event JSON to the hex signature) and the wall clock
(`datetime.now(timezone.utc).isoformat()`). -/
structure WriteEnv where
  sign : String → String
  keyId : String
  timestamp : String

def optStr : Option String → PyVal
  | none => .vnone
  | some s => .vstr s

/-- Python whitespace test for `str.strip()` emptiness (ASCII whitespace;
the event types involved are ASCII). -/
def isSpaceChar (c : Char) : Bool :=
  c.toNat == 32 || c.toNat == 9 || c.toNat == 10 || c.toNat == 13 ||
    c.toNat == 11 || c.toNat == 12

/-- Source `memory_engine._verify_inputs` (the `isinstance` halves of the guards are
enforced by typing). -/
def verifyInputs (event_type : String) (audited : String) : Except String Unit :=
  if event_type.data.all isSpaceChar then .error "event_type must be a non-empty string"
  else if ¬ CANONICAL_EVENT_TYPES.contains event_type then
    .error ("event_type must be one of the canonical event types, received " ++ event_type)
  else if audited.length < 8 then .error "audited_state_hash must be a non-empty hash string"
  else .ok ()

structure ReceiptR where
  event_type : String
  timestamp : String
  payload : PyEntries
  payload_hash : String
  audited_state_hash : String
  signature : String
  ledger_offset : Nat
  previous_entry_hash : Option String
  entry_hash : String
  merkle_root : String
  deriving DecidableEq

/-- The `canonical_event` dictionary `write_receipt` builds (insertion
order as in the source). -/
def canonicalEventEntries (et ts : String) (normalized : PyEntries) (ph ash keyId : String) :
    PyEntries :=
  .cons "event_type" (.vstr et) (.cons "timestamp" (.vstr ts)
    (.cons "payload" (.vdict normalized) (.cons "payload_hash" (.vstr ph)
      (.cons "audited_state_hash" (.vstr ash) (.cons "auditor" (.vstr AUDITOR_IDENTITY)
        (.cons "key_id" (.vstr keyId) .nil))))))

/-- Source `ledger_body = {**canonical_event, "signature": ...,
"previous_entry_hash": ...}`. -/
def ledgerBodyEntries (ce : PyEntries) (sig : String) (prev : Option String) : PyEntries :=
  appendEntries ce (.cons "signature" (.vstr sig) (.cons "previous_entry_hash" (optStr prev) .nil))

/-- Source `ledger_entry = {**ledger_body, "entry_hash": ...,
"merkle_root": ...}`. -/
def ledgerEntryEntries (lb : PyEntries) (eh mr : String) : PyEntries :=
  appendEntries lb (.cons "entry_hash" (.vstr eh) (.cons "merkle_root" (.vstr mr) .nil))

/-- Source `memory_engine.write_receipt`.  `_ensure_index_schema` creates the table
and indices only and never changes rows, so it is a no-op here;
`_append_to_ledger` returns the end-of-file byte offset and appends the
canonical JSON plus a newline; `_append_to_index` is `INSERT OR IGNORE`, so a
row violating `UNIQUE(ledger_offset)` or `UNIQUE(state_hash, payload_hash)`
is silently dropped; `commit` installs the prepared Merkle state. -/
def writeReceipt (env : WriteEnv) (w : World) (event_type : String) (payload : PyEntries)
    (audited : String) : Except String (World × ReceiptR) := do
  verifyInputs event_type audited
  let timestamp := env.timestamp
  let normalized := normalizePayload payload
  let payload_hash ← canonicalPayloadHash normalized
  let canonical_event := canonicalEventEntries event_type timestamp normalized payload_hash
    audited env.keyId
  let canonical_str ← canonicalJson (.vdict canonical_event)
  let signature := env.sign canonical_str
  let previous_entry_hash := w.merkle.last_leaf_hash
  let ledger_body := ledgerBodyEntries canonical_event signature previous_entry_hash
  let bodyJson ← canonicalJson (.vdict ledger_body)
  let entry_hash := sha256Hex bodyJson
  let merkle_update ← prepareUpdate w.merkle entry_hash
  let ledger_entry := ledgerEntryEntries ledger_body entry_hash merkle_update.new_root
  let entryJson ← canonicalJson (.vdict ledger_entry)
  let offset := w.ledgerBytes
  let row : IndexRow :=
    ⟨offset, event_type, audited, payload_hash, timestamp,
      merkle_update.new_root, entry_hash, previous_entry_hash⟩
  let index' :=
    if w.index.any (fun r =>
        r.ledger_offset == offset || (r.state_hash == audited && r.payload_hash == payload_hash))
    then w.index else w.index ++ [row]
  let w' : World :=
    ⟨w.ledgerEntries ++ [ledger_entry], w.ledgerBytes + (utf8 entryJson).length + 1,
      index', merkle_update.new_state⟩
  .ok (w', ⟨event_type, timestamp, normalized, payload_hash, audited, signature, offset,
    previous_entry_hash, entry_hash, merkle_update.new_root⟩)

/-! ## Verifier (`tessrax/ledger/verify_ledger.py`)

The two genuinely external ingredients are abstracted as parameters:
Ed25519 signature verification (`nacl.signing.VerifyKey.verify`) and
timestamp coercion (`datetime.fromisoformat(...).timestamp()` /
numeric passthrough).  Everything else is concrete. -/

/-- Source `LedgerVerificationError` (`.lve`, caught by `verify_ledger`) versus
exceptions that escape it uncaught (`ValueError`/`TypeError`/
`BadSignatureError` raised below `_read_ledger` outside any handler). -/
inductive VErr where
  | lve (msg : String)
  | uncaught (msg : String)
  deriving DecidableEq

structure LedgerRecord where
  offset : Nat
  event_type : String
  audited_state_hash : String
  payload_hash : String
  entry_hash : String
  merkle_root : String
  previous_entry_hash : Option String
  deriving DecidableEq

/-- Verifier externals: the key ids with `.pub` material under
`SIGNING_KEYS_DIR` (after `_coerce_verify_key`), Ed25519 verification
(key id, canonical signed-body JSON, hex signature), and timestamp coercion
returning a comparable instant or `none` for a parse failure. -/
structure VerifyEnv where
  keyIds : List String
  sigOk : String → String → String → Bool
  parseIso : String → Option Int

def isHexDigitChar (c : Char) : Bool :=
  (48 ≤ c.toNat && c.toNat ≤ 57) || (97 ≤ c.toNat && c.toNat ≤ 102)

/-- Source `STATE_HASH_PATTERN = ^([a-f0-9]{32}|[a-f0-9]{64})$`. -/
def stateHashOk (s : String) : Bool :=
  (s.data.length == 32 || s.data.length == 64) && s.data.all isHexDigitChar

def isVStr : PyVal → Bool
  | .vstr _ => true
  | _ => false

/-- The model's required-field loop: each field present and (except
`payload`) a string. -/
def modelFieldsCheck : List String → PyEntries → Except VErr Unit
  | [], _ => .ok ()
  | f :: fs, e =>
    match e.lookup f with
    | none => .error (.uncaught ("Missing receipt field " ++ f))
    | some v =>
      if f ≠ "payload" && ¬ isVStr v then
        .error (.uncaught ("Field " ++ f ++ " must be a string"))
      else modelFieldsCheck fs e

/-- Source `ReceiptPayloadModel.model_validate`: nine required fields, all strings
except `payload`, and a signature of at least 32 characters. -/
def modelValidate (e : PyEntries) : Except VErr Unit := do
  modelFieldsCheck
    ["event_type", "timestamp", "payload", "payload_hash", "audited_state_hash",
     "key_id", "signature", "entry_hash", "merkle_root"] e
  match e.lookup "signature" with
  | some (.vstr sg) =>
    if sg.length < 32 then throw (.uncaught "signature must be hex-like") else pure ()
  | _ => pure ()

/-- The signed body `_verify_signature` rebuilds (insertion order has
`auditor` appended last; canonical JSON sorts keys, so this matches the
writer's order). -/
def signedBodyOf (e : PyEntries) (keyId : String) : PyEntries :=
  let base : PyEntries :=
    .cons "event_type" ((e.lookup "event_type").getD .vnone)
      (.cons "timestamp" ((e.lookup "timestamp").getD .vnone)
        (.cons "payload" ((e.lookup "payload").getD .vnone)
          (.cons "payload_hash" ((e.lookup "payload_hash").getD .vnone)
            (.cons "audited_state_hash" ((e.lookup "audited_state_hash").getD .vnone)
              (.cons "key_id" (.vstr keyId) .nil)))))
  match e.lookup "auditor" with
  | some a => appendEntries base (.cons "auditor" a .nil)
  | none => base

/-- Source `bytes.fromhex` succeeds on an even number of hex digits (the
whitespace-tolerant corner of `fromhex` never arises for these values). -/
def hexDecodable (s : String) : Bool :=
  s.data.all isHexDigitChar && s.length % 2 == 0

/-- Source `verify_ledger._verify_signature`.  A missing `key_id` falls back to the
lone configured key; an unknown id is a verification error; a bad signature
raises `nacl`'s `BadSignatureError`, which `verify_ledger` does not catch. -/
def verifySignature (env : VerifyEnv) (e : PyEntries) (lineNo : Nat) : Except VErr Unit := do
  let keyId ←
    match e.lookup "key_id" with
    | some (.vstr k) => pure k
    | _ =>
      match env.keyIds with
      | [k] => pure k
      | _ => throw (.lve ("Missing key_id at line " ++ natStr lineNo ++
          " while multiple verification keys are configured"))
  if ¬ env.keyIds.contains keyId then
    throw (.lve ("Unknown key_id " ++ keyId ++ " at line " ++ natStr lineNo))
  let message ←
    match canonicalJson (.vdict (signedBodyOf e keyId)) with
    | .ok m => pure m
    | .error msg => throw (.uncaught msg)
  let sigHex ←
    match e.lookup "signature" with
    | some (.vstr sg) => pure sg
    | _ => throw (.lve ("Missing signature at line " ++ natStr lineNo))
  if ¬ hexDecodable sigHex then
    throw (.lve ("Invalid signature encoding at line " ++ natStr lineNo))
  if env.sigOk keyId message sigHex then pure () else throw (.uncaught "BadSignatureError")

/-- The `for field in required` presence loop of `_read_ledger`. -/
def requireFields : List String → PyEntries → Nat → Except VErr Unit
  | [], _, _ => .ok ()
  | f :: fs, e, lineNo =>
    if (e.lookup f).isNone then
      .error (.lve ("Missing field " ++ f ++ " at line " ++ natStr lineNo))
    else requireFields fs e lineNo

/-- The per-line body of `_read_ledger`'s loop, in source order.  Returns the
accepted record plus the updated timestamp floor, Merkle state and previous
entry hash. -/
def checkEntry (env : VerifyEnv) (epochSt : EpochState) (lineNo : Nat) (recordsLen : Nat)
    (prevTs : Option Int) (merkle : MerkleState) (prevHash : Option String)
    (e : PyEntries) : Except VErr (LedgerRecord × Int × MerkleState × String) := do
  requireFields
    ["event_type", "timestamp", "payload", "payload_hash", "audited_state_hash",
     "signature", "epoch_id", "governance_freshness_tag"] e lineNo
  requireFields ["entry_hash", "merkle_root"] e lineNo
  modelValidate e
  let eventType ←
    match e.lookup "event_type" with
    | some (.vstr et) => pure et
    | _ => throw (.lve ("event_type at line " ++ natStr lineNo ++ " must be a string"))
  if ¬ CANONICAL_EVENT_TYPES.contains eventType then
    throw (.lve ("Unknown event_type at line " ++ natStr lineNo))
  let stateHash ←
    match e.lookup "audited_state_hash" with
    | some (.vstr sh) => pure sh
    | _ => throw (.lve ("Invalid audited_state_hash at line " ++ natStr lineNo))
  if ¬ stateHashOk stateHash then
    throw (.lve ("Invalid audited_state_hash at line " ++ natStr lineNo))
  let ts ←
    match e.lookup "timestamp" with
    | some (.vint n) => pure n
    | some (.vstr s) =>
      match env.parseIso s with
      | some t => pure t
      | none => throw (.lve ("Timestamp at line " ++ natStr lineNo ++
          " must be ISO-8601 or numeric"))
    | _ => throw (.lve ("Timestamp at line " ++ natStr lineNo ++ " must be ISO-8601 or numeric"))
  let payloadHash ←
    match e.lookup "payload" with
    | some (.vdict p) =>
      match canonicalPayloadHash p with
      | .ok h => pure h
      | .error msg => throw (.uncaught msg)
    | _ => throw (.lve ("Payload at line " ++ natStr lineNo ++ " must be an object"))
  let payloadHashField ←
    match e.lookup "payload_hash" with
    | some (.vstr h) => pure h
    | _ => throw (.lve ("payload_hash at line " ++ natStr lineNo ++ " must be a string"))
  if payloadHash ≠ payloadHashField then
    throw (.lve ("Payload hash mismatch at line " ++ natStr lineNo))
  match prevTs with
  | some p => if ts < p then throw (.lve ("Timestamp regression at line " ++ natStr lineNo))
  | none => pure ()
  if env.keyIds.isEmpty then throw (.lve "No Ed25519 verification keys found.")
  verifySignature env e lineNo
  let entryHash ←
    match e.lookup "entry_hash" with
    | some (.vstr h) => pure h
    | _ => throw (.lve ("entry_hash at line " ++ natStr lineNo ++ " must be a string"))
  let computed ←
    match computeEntryHash e with
    | .ok h => pure h
    | .error msg => throw (.uncaught msg)
  if computed ≠ entryHash then
    throw (.lve ("Entry hash mismatch at line " ++ natStr lineNo))
  if ((e.lookup "previous_entry_hash").getD .vnone) ≠ optStr prevHash then
    throw (.lve ("previous_entry_hash mismatch at line " ++ natStr lineNo))
  let merkle' ←
    match merkle.applyLeaf entryHash with
    | .ok m => pure m
    | .error msg => throw (.uncaught msg)
  if ((e.lookup "merkle_root").getD .vnone) ≠ .vstr merkle'.root then
    throw (.lve ("merkle_root mismatch at line " ++ natStr lineNo))
  let epochId ←
    match e.lookup "epoch_id" with
    | some (.vstr i) => pure i
    | _ => throw (.lve ("epoch_id at line " ++ natStr lineNo ++ " must be a string"))
  match getEpoch epochSt entryHash with
  | .ok recorded =>
    if recorded ≠ epochId then
      throw (.lve ("epoch_id mismatch at line " ++ natStr lineNo))
  | .error _ => pure ()
  .ok (⟨recordsLen, eventType, stateHash, payloadHash, entryHash, merkle'.root, prevHash⟩,
    ts, merkle', entryHash)

/-- The `_read_ledger` loop over the parsed log lines (blank lines and JSON
parsing happen before this model's input; every element is already an
object). -/
def readLedgerLoop (env : VerifyEnv) (epochSt : EpochState) :
    List PyEntries → Nat → List LedgerRecord → Option Int → MerkleState → Option String →
      Except VErr (List LedgerRecord × MerkleState)
  | [], _, records, _, merkle, _ => .ok (records, merkle)
  | e :: rest, lineNo, records, prevTs, merkle, prevHash => do
    let (rec', ts, merkle', eh) ←
      checkEntry env epochSt lineNo records.length prevTs merkle prevHash e
    readLedgerLoop env epochSt rest (lineNo + 1) (records ++ [rec']) (some ts) merkle' (some eh)

/-- Source `verify_ledger._read_ledger`. -/
def readLedger (env : VerifyEnv) (epochSt : EpochState) (log : List PyEntries) :
    Except VErr (List LedgerRecord × MerkleState) :=
  readLedgerLoop env epochSt log 1 [] none MerkleState.empty none

def insertByOffset (r : IndexRow) : List IndexRow → List IndexRow
  | [] => [r]
  | q :: qs => if r.ledger_offset < q.ledger_offset then r :: q :: qs else q :: insertByOffset r qs

/-- Source `_fetch_index_rows`' `ORDER BY ledger_offset` (offsets are unique by the
table constraint, so the order is total). -/
def sortByOffset : List IndexRow → List IndexRow
  | [] => []
  | r :: rs => insertByOffset r (sortByOffset rs)

/-- Source `record.previous_entry_hash or None` — an empty string collapses to
`None`. -/
def orNone : Option String → Option String
  | some "" => none
  | x => x

/-- Source `verify_ledger._compare_index` over the fetched rows. -/
def compareIndexLoop : List IndexRow → List LedgerRecord → Nat → Int → Except VErr Unit
  | [], _, _, _ => .ok ()
  | row :: rows, records, expectedOffset, prevOffset => do
    if (row.ledger_offset : Int) < prevOffset then
      throw (.lve ("Ledger offsets must be monotonically increasing (row " ++
        natStr expectedOffset ++ ")"))
    match records.get? expectedOffset with
    | none => throw (.uncaught "IndexError: list index out of range")
    | some rec' =>
      if rec'.event_type ≠ row.event_type ∨ rec'.audited_state_hash ≠ row.state_hash ∨
          rec'.payload_hash ≠ row.payload_hash ∨ rec'.entry_hash ≠ row.entry_hash ∨
          rec'.merkle_root ≠ row.merkle_root ∨
          orNone rec'.previous_entry_hash ≠ row.previous_entry_hash then
        throw (.lve ("Index mismatch at offset " ++ natStr expectedOffset))
      else
        compareIndexLoop rows records (expectedOffset + 1) (row.ledger_offset : Int)

def compareIndex (indexRows : List IndexRow) (records : List LedgerRecord) :
    Except VErr Unit := do
  let rows := sortByOffset indexRows
  if rows.length ≠ records.length then
    throw (.lve ("Index/ledger length mismatch (" ++ natStr rows.length ++ " vs " ++
      natStr records.length ++ ")"))
  compareIndexLoop rows records 0 (-1)

/-- Source `verify_ledger._verify_merkle_state`. -/
def verifyMerkleState (persisted observed : MerkleState) : Except VErr Unit := do
  if persisted.entry_count ≠ observed.entry_count then
    throw (.lve "Merkle entry count mismatch")
  if persisted.root ≠ observed.root then throw (.lve "Merkle root mismatch")

/-- Source `verify_ledger.verify_ledger`: three stages, returning `False` on a
caught `LedgerVerificationError`; exceptions of any other type escape (here:
`Except.error`). -/
def verifyLedger (env : VerifyEnv) (epochSt : EpochState) (log : List PyEntries)
    (indexRows : List IndexRow) (persisted : MerkleState) : Except String Bool :=
  match (do
      let (records, ms) ← readLedger env epochSt log
      compareIndex indexRows records
      verifyMerkleState persisted ms : Except VErr Unit) with
  | .ok () => .ok true
  | .error (.lve _) => .ok false
  | .error (.uncaught m) => .error m

/-! ## Parallel replay (`tessrax/ledger/parallel_replay.py`) -/

/-- Modelled from the spec: `canonical_serialize` is imported by
`parallel_replay` from `tessrax.core.serialization` but does not exist there
(the module cannot even be imported); the spec's canonical serializer is
`canonical_json`, so the helper is modelled as serializing the whole entry
canonically. -/
def canonicalSerialize (v : PyVal) : Except String String := canonicalJson v

/-- Source `parallel_replay._compute_entry_hash_for_replay`: hashes the *entire*
canonicalized entry — including its own `entry_hash` and `merkle_root`
fields. -/
def computeEntryHashForReplay (e : PyEntries) : Except String String := do
  let s ← canonicalSerialize (.vdict e)
  .ok (sha256Hex s)

/-- Source `"0" * 64`, the initial `previous` value `parallel_replay_root` expects
of the very first entry. -/
def zeros64 : String := String.mk (List.replicate 64 (Char.ofNat 48))

def parallelReplayLoop : List PyEntries → MerkleState → String → Except String String
  | [], state, _ => .ok state.root
  | e :: rest, state, previous => do
    let rh ← computeEntryHashForReplay e
    if (e.lookup "previous_entry_hash").isNone then
      throw "Entry missing previous_entry_hash field."
    else if ((e.lookup "previous_entry_hash").getD .vnone) ≠ .vstr previous then
      throw "previous_entry_hash mismatch during replay."
    else
      match e.lookup "entry_hash" with
      | none => throw "KeyError: entry_hash"
      | some stored =>
        if (.vstr rh : PyVal) ≠ stored then
          throw "Entry hash mismatch during replay."
        else do
          let state' ← state.applyLeaf rh
          parallelReplayLoop rest state' rh

/-- Source `parallel_replay.parallel_replay_root` (`workers` is ignored by the
source itself). -/
def parallelReplayRoot (log : List PyEntries) : Except String String :=
  parallelReplayLoop log MerkleState.empty zeros64

/-! ## Token guard (`tessrax/governance/token_guard.py`)

Instants are microseconds since the epoch; `canonical_datetime` keeps
millisecond precision, so the saved `last_seen` is the now-instant truncated
to whole milliseconds, and `parse_canonical_datetime` recovers it exactly. -/

structure TGRecord where
  last_seen : Int
  last_counter : Int
  last_tag : String
  deriving DecidableEq

/-- Python dict assignment: replace in place or append at the end. -/
def alistSet {α : Type} : List (String × α) → String → α → List (String × α)
  | [], k, v => [(k, v)]
  | (k2, v2) :: rest, k, v =>
    if k2 == k then (k, v) :: rest else (k2, v2) :: alistSet rest k v

/-- Source `canonical_datetime` truncation to milliseconds (instants here are
non-negative, where Lean's `Int` division agrees with Python's floor
division). -/
def truncMs (t : Int) : Int := t / 1000 * 1000

def tokenMissingMsg : String := "Governance token missing from environment"

def tokenExpiredMsg : String := "Governance token expired; refresh required"

def tokenReplayMsg : String := "Governance token replay detected"

/-- Source `GovernanceTokenGuard.validate`, as a transformer of the persisted state
file: the first component of the result is the file contents after the call
(`_save_state` runs only on the success path), the second the returned tag or
the raised `GovernanceTokenError`. -/
def validateGuard (token : Option String) (st : List (String × TGRecord)) (now : Int)
    (windowSeconds : Int) (ledgerCounter : Int) :
    List (String × TGRecord) × Except String String :=
  match token with
  | none => (st, .error tokenMissingMsg)
  | some t =>
    if t == "" then (st, .error tokenMissingMsg)
    else
      let digest := sha256Hex t
      match alistGet st digest with
      | some r =>
        if windowSeconds * 1000000 < now - r.last_seen then (st, .error tokenExpiredMsg)
        else if r.last_counter == ledgerCounter then (st, .error tokenReplayMsg)
        else
          let tag := digest ++ ":" ++ intStr ledgerCounter
          (alistSet st digest ⟨truncMs now, ledgerCounter, tag⟩, .ok tag)
      | none =>
        let tag := digest ++ ":" ++ intStr ledgerCounter
        (alistSet st digest ⟨truncMs now, ledgerCounter, tag⟩, .ok tag)

/-- The guard behaviour exactly as claim C6 orders it: with a record present,
the replay test (`last_counter == ledger_counter`) fires *first* and the
expiry test second. -/
def tokenGuardSpecClaim (token : Option String) (st : List (String × TGRecord)) (now : Int)
    (windowSeconds : Int) (ledgerCounter : Int) :
    List (String × TGRecord) × Except String String :=
  match token with
  | none => (st, .error tokenMissingMsg)
  | some t =>
    if t == "" then (st, .error tokenMissingMsg)
    else
      let digest := sha256Hex t
      match alistGet st digest with
      | some r =>
        if r.last_counter == ledgerCounter then (st, .error tokenReplayMsg)
        else if windowSeconds * 1000000 < now - r.last_seen then (st, .error tokenExpiredMsg)
        else
          let tag := digest ++ ":" ++ intStr ledgerCounter
          (alistSet st digest ⟨truncMs now, ledgerCounter, tag⟩, .ok tag)
      | none =>
        let tag := digest ++ ":" ++ intStr ledgerCounter
        (alistSet st digest ⟨truncMs now, ledgerCounter, tag⟩, .ok tag)

/-- The amended decision list: expiry is tested before replay, replay fires
only within the window, and every failure leaves the state untouched. -/
def tokenGuardSpecAmended (token : Option String) (st : List (String × TGRecord)) (now : Int)
    (windowSeconds : Int) (ledgerCounter : Int) :
    List (String × TGRecord) × Except String String :=
  match token with
  | none => (st, .error tokenMissingMsg)
  | some t =>
    if t == "" then (st, .error tokenMissingMsg)
    else
      let digest := sha256Hex t
      let expired : Bool :=
        match alistGet st digest with
        | some r => decide (windowSeconds * 1000000 < now - r.last_seen)
        | none => false
      let replayed : Bool :=
        match alistGet st digest with
        | some r =>
          !(decide (windowSeconds * 1000000 < now - r.last_seen)) &&
            decide (r.last_counter = ledgerCounter)
        | none => false
      if expired then (st, .error tokenExpiredMsg)
      else if replayed then (st, .error tokenReplayMsg)
      else
        let tag := digest ++ ":" ++ intStr ledgerCounter
        (alistSet st digest ⟨truncMs now, ledgerCounter, tag⟩, .ok tag)

/-! ## Key registry (`tessrax/infra/key_registry.py`)

Instants are again microseconds since the epoch; the state file stores them
as ISO strings and parses them back, which round-trips, so the embedding
keeps the instants.  Key generation and Ed25519 signing are externals of the
environment. -/

structure RotPolicy where
  min_hours_between_rotations : Nat
  max_active_age_hours : Nat
  deprecation_window_hours : Nat
  deriving DecidableEq

/-- Source `DEFAULT_POLICY` (`1.0`, `720.0`, `720.0` — all integral hour counts). -/
def DEFAULT_POLICY : RotPolicy := ⟨1, 720, 720⟩

structure CrossRecord where
  payloadJson : String
  signed_by_previous : String
  signed_by_new : String
  deriving DecidableEq

structure GovApproval where
  approver : String
  token_digest : String
  issued_at : Int
  deriving DecidableEq

structure KeyMeta where
  status : Option String
  created_at : Option Int
  activated_at : Option Int
  policy_snapshot : Option RotPolicy
  deprecation_window : Option (Int × Int)
  last_active : Option Int
  cross_signature : Option CrossRecord
  governance_approval : Option GovApproval
  reason : Option String
  deriving DecidableEq

def emptyKeyMeta : KeyMeta := ⟨none, none, none, none, none, none, none, none, none⟩

/-- Source `rotation_state.json` (the `_read_state` skeleton when the file is
empty). -/
structure RegState where
  policy : Option RotPolicy
  last_rotation : Option Int
  next_rotation_due : Option Int
  active_key : Option String
  keys : List (String × KeyMeta)
  deriving DecidableEq

def RegState.empty : RegState := ⟨none, none, none, none, []⟩

/-- The environment `rotate_key` reads.  `requiredApprovers` models
`TESSRAX_REQUIRED_APPROVERS`, which only
`governance.coverage.multisig_rotation_verifier` ever reads — `rotate_key`
itself never consults it. -/
structure RotateEnv where
  govTokenEnv : Option String
  requiredApprovers : Option String
  keyIdEnv : Option String
  approverEnv : Option String
  now : Int
  isoNow : String
  prevKeyFile : String → Option String
  signWithPrev : String → String → String
  signWithNew : String → String

/-- Source `_rotation_policy`: merge positive numeric overrides over the defaults
(override values in the wild are positive, so a present policy wins
wholesale). -/
def mergePolicy : Option RotPolicy → RotPolicy
  | none => DEFAULT_POLICY
  | some p => p

/-- A 32-byte Ed25519 seed as stored: exactly 64 hex characters. -/
def isSeedHex (s : String) : Bool := s.data.all isHexDigitChar && s.length == 64

def hoursToMicros (h : Nat) : Int := (h : Int) * 3600000000

/-- Source `key_registry.rotate_key` composed with `_promote_new_key` and
`_save_state`, as a pure transformer: errors leave the state file unchanged
(the exception propagates before `_save_state`), success returns the saved
state and the promoted key id. -/
def rotateKey (env : RotateEnv) (state : RegState) (reason token : String)
    (newKeyId : Option String) (force : Bool) : Except String (RegState × String) := do
  if reason == "" || reason.data.all isSpaceChar then
    throw "Rotation reason must be a non-empty string"
  if token == "" then throw "Governance token is required for rotation"
  match env.govTokenEnv with
  | some expected =>
    if expected ≠ "" && token ≠ expected && ¬ force then
      throw "Governance token mismatch; rotation denied"
  | none => pure ()
  let previousKey := state.active_key
  let keyId := newKeyId.getD (env.keyIdEnv.getD "legacy")
  if (alistGet state.keys keyId).isSome && ¬ force then
    throw ("Key " ++ keyId ++ " already exists; pass force=True to overwrite")
  let policy := mergePolicy state.policy
  match state.last_rotation with
  | some last =>
    if ¬ force && env.now - last < hoursToMicros policy.min_hours_between_rotations then
      throw "Rotation requested before minimum interval elapsed"
  | none => pure ()
  let depWin := (env.now, env.now + hoursToMicros policy.deprecation_window_hours)
  let (cross, keysAfterDemote) ←
    match previousKey with
    | some prevId => do
      let prevHex ←
        match env.prevKeyFile prevId with
        | none => throw ("Previous key material missing for " ++ prevId)
        | some contents => pure contents
      if ¬ isSeedHex prevHex then throw "Previous signing key is not valid hex"
      let crossPayload : PyEntries :=
        .cons "event" (.vstr "KEY_ROTATION")
          (.cons "previous_key_id" (.vstr prevId)
            (.cons "new_key_id" (.vstr keyId)
              (.cons "timestamp" (.vstr env.isoNow)
                (.cons "reason" (.vstr reason)
                  (.cons "auditor" (.vstr AUDITOR_IDENTITY) .nil)))))
      let canonical ←
        match canonicalJson (.vdict crossPayload) with
        | .ok c => pure c
        | .error msg => throw msg
      let rec' : CrossRecord :=
        ⟨canonical, env.signWithPrev prevId canonical, env.signWithNew canonical⟩
      let prevMeta := (alistGet state.keys prevId).getD emptyKeyMeta
      let demoted := { prevMeta with
        status := some "legacy", last_active := some env.now,
        deprecation_window := some depWin }
      pure (some rec', alistSet state.keys prevId demoted)
    | none => pure (none, state.keys)
  let newMeta : KeyMeta :=
    ⟨some "active", some env.now, some env.now, some policy, some depWin, none, cross,
      some ⟨env.approverEnv.getD AUDITOR_IDENTITY, sha256Hex token, env.now⟩, some reason⟩
  let state' : RegState :=
    ⟨some policy, some env.now, some (env.now + hoursToMicros policy.max_active_age_hours),
      some keyId, alistSet keysAfterDemote keyId newMeta⟩
  .ok (state', keyId)

/-! ## Claim-side fold shapes for the Merkle root (C4) -/

/-- Right fold of peaks as claim C4 (and spec §3) words it:
`node(p0, node(p1, ... node(p_{k-1}, pk)...))`. -/
def rightFoldPeaks : String → List String → String
  | p, [] => p
  | p, q :: rest => hashNode p (rightFoldPeaks q rest)

/-- Claim C4's reading of `root()`. -/
def rootRightFoldClaim (s : MerkleState) : String :=
  match s.peaks with
  | [] => EMPTY_ROOT
  | p :: rest => rightFoldPeaks p rest

/-- Left fold of peaks, spelled recursively:
`node(...node(node(p0, p1), p2)..., pk)`. -/
def leftFoldPeaks : String → List String → String
  | acc, [] => acc
  | acc, q :: rest => leftFoldPeaks (hashNode acc q) rest

/-- The amended reading of `root()`. -/
def rootLeftFoldSpec (s : MerkleState) : String :=
  match s.peaks with
  | [] => EMPTY_ROOT
  | p :: rest => leftFoldPeaks p rest

/-! ## Structural predicates and the key-sorted form (C9) -/

def containsStr : List String → String → Bool
  | [], _ => false
  | a :: as, k => a == k || containsStr as k

def keysNodupB : List String → Bool
  | [] => true
  | k :: ks => (!containsStr ks k) && keysNodupB ks

mutual
/-- Deep key-distinctness: every nested mapping has pairwise distinct keys
(every genuine Python dict satisfies this). -/
def dkV : PyVal → Bool
  | .vdict es => keysNodupB es.keys && dkE es
  | .vlist xs => dkL xs
  | _ => true
def dkL : PyList → Bool
  | .nil => true
  | .cons x xs => dkV x && dkL xs
def dkE : PyEntries → Bool
  | .nil => true
  | .cons _ v es => dkV v && dkE es
end

mutual
/-- Numeric leaves already in normalized form: no `Decimal` leaves and every
float is a fixed point of `_normalize_float` (so not `-0.0`). -/
def nlV : PyVal → Bool
  | .vfloat f => normFloat f == f
  | .vdec _ => false
  | .vdict es => nlE es
  | .vlist xs => nlL xs
  | _ => true
def nlL : PyList → Bool
  | .nil => true
  | .cons x xs => nlV x && nlL xs
def nlE : PyEntries → Bool
  | .nil => true
  | .cons _ v es => nlV v && nlE es
end

mutual
/-- Recursively key-sorted form of a value: two payloads are key-reorderings
of one another exactly when their key-sorted forms coincide. -/
def deepSortVal : PyVal → PyVal
  | .vdict es => .vdict (sortEntries (deepSortEntries es))
  | .vlist xs => .vlist (deepSortList xs)
  | .vstr s => .vstr s
  | .vint n => .vint n
  | .vbool b => .vbool b
  | .vnone => .vnone
  | .vfloat f => .vfloat f
  | .vdec d => .vdec d
def deepSortList : PyList → PyList
  | .nil => .nil
  | .cons x xs => .cons (deepSortVal x) (deepSortList xs)
def deepSortEntries : PyEntries → PyEntries
  | .nil => .nil
  | .cons k v es => .cons k (deepSortVal v) (deepSortEntries es)
end

/-- The key `k` is strictly below every key of the list. -/
def allKeyLt (k : String) : List (String × String) → Bool
  | [] => true
  | q :: qs => strLt k q.1 && allKeyLt k qs

/-- Strictly key-sorted rendered member lists. -/
def sortedKeysB : List (String × String) → Bool
  | [] => true
  | p :: ps => allKeyLt p.1 ps && sortedKeysB ps

/-- The constant `TypeError` message every serializer failure carries. -/
def decErrMsg : String := "TypeError: Object of type Decimal is not JSON serializable"

/-! ## Concrete fixtures for witnesses and counterexamples -/

/-- A 128-hex-character stand-in signature (the signing oracle of the test
environment returns it for every message). -/
def sig0 : String := String.mk (List.replicate 128 (Char.ofNat 97))

def ts0 : String := "2024-01-01T00:00:00+00:00"

def ts1 : String := "2024-01-01T00:00:01+00:00"

def env0 : WriteEnv := ⟨fun _ => sig0, "suite-key", ts0⟩

def env0b : WriteEnv := ⟨fun _ => sig0, "suite-key", ts1⟩

def pay0 : PyEntries := .cons "node_id" (.vint 0) (.cons "status" (.vstr "VERIFIED") .nil)

def firstWrite : Except String (World × ReceiptR) :=
  writeReceipt env0 World.empty "STATE_AUDITED" pay0 zeros64

def emptyReceipt : ReceiptR := ⟨"", "", .nil, "", "", "", 0, none, "", ""⟩

def w1c : World :=
  match firstWrite with
  | .ok (w, _) => w
  | .error _ => World.empty

def r1c : ReceiptR :=
  match firstWrite with
  | .ok (_, r) => r
  | .error _ => emptyReceipt

def venv0 : VerifyEnv := ⟨["suite-key"], fun _ _ _ => true, fun _ => some 0⟩

/-- Two writes with the same `(audited_state_hash, payload_hash)` pair but
different wall-clock timestamps (claim C3's duplicate scenario). -/
def dupW : Option World :=
  match writeReceipt env0 World.empty "STATE_AUDITED" pay0 zeros64 with
  | .ok (w1, _) =>
    match writeReceipt env0b w1 "STATE_AUDITED" pay0 zeros64 with
    | .ok (w2, _) => some w2
    | .error _ => none
  | .error _ => none

/-- A token-guard state holding a record that is simultaneously expired and a
counter replay at `now = 400 s`, `window = 300 s`, `counter = 7`. -/
def tgSt0 : List (String × TGRecord) := [(sha256Hex "alpha", ⟨0, 7, "old"⟩)]

/-- The nine-field body of a handcrafted ledger entry (C2's accepted-entry
counterexample); its `payload_hash` is the canonical hash of the empty
payload. -/
def ph0 : String :=
  match canonicalPayloadHash .nil with
  | .ok h => h
  | .error _ => ""

def eBase : PyEntries :=
  .cons "event_type" (.vstr "STATE_AUDITED")
    (.cons "timestamp" (.vstr ts0)
      (.cons "payload" (.vdict .nil)
        (.cons "payload_hash" (.vstr ph0)
          (.cons "audited_state_hash" (.vstr zeros64)
            (.cons "auditor" (.vstr AUDITOR_IDENTITY)
              (.cons "key_id" (.vstr "suite-key")
                (.cons "signature" (.vstr sig0)
                  (.cons "previous_entry_hash" .vnone .nil))))))))

/-- The entry hash the code's rule assigns to `eBase`. -/
def ehashC : String :=
  match computeEntryHash eBase with
  | .ok h => h
  | .error _ => ""

/-- The Merkle root after applying that hash to an empty accumulator. -/
def mroot0 : String :=
  match MerkleState.empty.applyLeaf ehashC with
  | .ok m => m.root
  | .error _ => ""

/-- A complete ledger entry carrying a `governance_freshness_tag`, built to
pass every stage-1 check of the verifier. -/
def eAcc : PyEntries :=
  appendEntries eBase
    (.cons "epoch_id" (.vstr "EPOCH-X")
      (.cons "governance_freshness_tag" (.vstr "d:0")
        (.cons "entry_hash" (.vstr ehashC)
          (.cons "merkle_root" (.vstr mroot0) .nil))))

/-- Verifier environment for the counterexample: the signing oracle accepts,
timestamps parse to a constant instant. -/
def cexEnv : VerifyEnv := ⟨["suite-key"], fun _ _ _ => true, fun _ => some 0⟩

/-! ## Helper lemmas -/

/-- Validation of the SHA-256 embedding against the FIPS 180-4 empty-message
test vector. -/
theorem sha256Hex_empty_vector :
    sha256Hex "" = "e3b0c44298fc1c149afbf4c8996fb92427ae41e4649b934ca495991b7852b855" := by
  decide

/-- Validation of the SHA-256 embedding against the FIPS 180-4 `abc` test
vector. -/
theorem sha256Hex_abc_vector :
    sha256Hex "abc" = "ba7816bf8f01cfea414140de5dae2223b00361a396177a9cb410ff61f20015ad" := by
  decide

/-- Validation: the canonical hash of the one-key payload reproduces the
digest Python emits for it. -/
theorem canonicalJson_digest_vector :
    (canonicalJson (.vdict (.cons "a" (.vint 1) .nil))).map sha256Hex =
      .ok "015abd7f5cc57a2dd94b7590f04ad8084273905ee33ec5cebeae62276a97f862" := by
  decide

/-- Validation: the serializer writes the negative zero float as Python does,
and the normalizer moves it to positive zero. -/
theorem negZero_repr_and_normalize :
    canonicalJson (.vfloat ⟨true, 0, ['0']⟩) = .ok "-0.0" ∧
      normFloat ⟨true, 0, ['0']⟩ = ⟨false, 0, ['0']⟩ ∧
      normVal (.vdec ⟨false, 1000, -1⟩) = .vfloat ⟨false, 100, ['0']⟩ :=
  ⟨rfl, rfl, rfl⟩

theorem foldl_hashNode_eq_leftFold (rest : List String) (p : String) :
    rest.foldl hashNode p = leftFoldPeaks p rest := by
  induction rest generalizing p with
  | nil => rfl
  | cons q qs ih => simp only [List.foldl_cons, leftFoldPeaks, ih]

theorem containsStr_append_singleton (l : List String) (k k' : String) :
    containsStr (l ++ [k]) k' = (containsStr l k' || k == k') := by
  induction l with
  | nil => simp [containsStr]
  | cons a as ih =>
    show containsStr (a :: (as ++ [k])) k' = (containsStr (a :: as) k' || (k == k'))
    simp only [containsStr, ih, Bool.or_assoc]

theorem keysNodupB_append_singleton (l : List String) (k : String) :
    keysNodupB (l ++ [k]) = (keysNodupB l && !containsStr l k) := by
  induction l with
  | nil => simp [keysNodupB, containsStr]
  | cons a as ih =>
    show (!containsStr (as ++ [k]) a && keysNodupB (as ++ [k])) =
      ((!containsStr as a && keysNodupB as) && !containsStr (a :: as) k)
    rw [containsStr_append_singleton, ih]
    show _ = ((!containsStr as a && keysNodupB as) && !(a == k || containsStr as k))
    by_cases hak : a = k
    · subst hak
      simp
    · have h1 : (a == k) = false := by simp [hak]
      have h2 : (k == a) = false := by simp [Ne.symm hak]
      simp only [h1, h2, Bool.or_false, Bool.false_or, Bool.and_assoc]

theorem alistGet_none_not_mem {α : Type} (l : List (String × α)) (k : String)
    (h : alistGet l k = none) : containsStr (l.map Prod.fst) k = false := by
  induction l with
  | nil => rfl
  | cons a as ih =>
    simp only [alistGet] at h
    by_cases hk : a.1 == k
    · simp [hk] at h
    · have hk' : (a.1 == k) = false := by
        cases hkb : a.1 == k
        · rfl
        · exact absurd hkb hk
      simp only [hk', Bool.false_eq_true, if_false] at h
      simp only [List.map_cons, containsStr, hk', Bool.false_or]
      exact ih h

theorem uint32_toNat_inj (c d : UInt32) (h : c.toNat = d.toNat) : c = d := by
  cases c
  cases d
  simp only [UInt32.toNat] at h
  congr 1
  exact BitVec.eq_of_toNat_eq h

theorem char_toNat_inj (c d : Char) (h : c.toNat = d.toNat) : c = d := by
  apply Char.eq_of_val_eq
  exact uint32_toNat_inj _ _ h

theorem charsLt_asymm : ∀ a b, charsLt a b = true → charsLt b a = false
  | [], [] => by simp [charsLt]
  | [], _ :: _ => by simp [charsLt]
  | _ :: _, [] => by simp [charsLt]
  | a :: as, b :: bs => by
    simp only [charsLt]
    by_cases h1 : a.toNat < b.toNat
    · intro _
      rw [if_neg (by omega : ¬ b.toNat < a.toNat), if_pos h1]
    · rw [if_neg h1]
      by_cases h2 : b.toNat < a.toNat
      · rw [if_pos h2]
        intro hh
        cases hh
      · rw [if_neg h2]
        intro hh
        rw [if_neg h2, if_neg h1]
        exact charsLt_asymm as bs hh

theorem charsLt_conn : ∀ a b, charsLt a b = false → charsLt b a = false → a = b
  | [], [] => fun _ _ => rfl
  | [], _ :: _ => by simp [charsLt]
  | _ :: _, [] => by simp [charsLt]
  | a :: as, b :: bs => by
    simp only [charsLt]
    by_cases h1 : a.toNat < b.toNat
    · rw [if_pos h1]
      intro hh
      cases hh
    · rw [if_neg h1]
      by_cases h2 : b.toNat < a.toNat
      · rw [if_pos h2, if_pos h2]
        intro _ hh
        cases hh
      · rw [if_neg h2, if_neg h2, if_neg h1]
        intro hab hba
        have hc : a = b := char_toNat_inj a b (by omega)
        subst hc
        rw [charsLt_conn as bs hab hba]

theorem charsLt_trans : ∀ a b c, charsLt a b = true → charsLt b c = true → charsLt a c = true
  | [], b, [] => by cases b <;> simp [charsLt]
  | [], [], _ :: _ => by simp [charsLt]
  | [], _ :: _, _ :: _ => by simp [charsLt]
  | _ :: _, [], _ => by simp [charsLt]
  | _ :: _, _ :: _, [] => by simp [charsLt]
  | a :: as, b :: bs, c :: cs => by
    simp only [charsLt]
    by_cases h1 : a.toNat < b.toNat
    · rw [if_pos h1]
      by_cases h2 : b.toNat < c.toNat
      · rw [if_pos h2, if_pos (by omega : a.toNat < c.toNat)]
        intro _ _
        rfl
      · rw [if_neg h2]
        by_cases h3 : c.toNat < b.toNat
        · rw [if_pos h3]
          intro _ hh
          cases hh
        · rw [if_neg h3, if_pos (by omega : a.toNat < c.toNat)]
          intro _ _
          rfl
    · rw [if_neg h1]
      by_cases h2 : b.toNat < a.toNat
      · rw [if_pos h2]
        intro hh
        cases hh
      · rw [if_neg h2]
        by_cases h3 : b.toNat < c.toNat
        · rw [if_pos h3, if_pos (by omega : a.toNat < c.toNat)]
          intro _ _
          rfl
        · rw [if_neg h3]
          by_cases h4 : c.toNat < b.toNat
          · rw [if_pos h4]
            intro _ hh
            cases hh
          · rw [if_neg h4, if_neg (by omega : ¬ a.toNat < c.toNat),
              if_neg (by omega : ¬ c.toNat < a.toNat)]
            exact charsLt_trans as bs cs

theorem strLt_asymm (a b : String) (h : strLt a b = true) : strLt b a = false :=
  charsLt_asymm _ _ h

theorem strLt_conn (a b : String) (h1 : strLt a b = false) (h2 : strLt b a = false) :
    a = b := by
  cases a
  cases b
  exact congrArg String.mk (charsLt_conn _ _ h1 h2)

theorem strLt_trans (a b c : String) (h1 : strLt a b = true) (h2 : strLt b c = true) :
    strLt a c = true :=
  charsLt_trans _ _ _ h1 h2

theorem allKeyLt_trans (a b : String) (l : List (String × String))
    (hab : strLt a b = true) (h : allKeyLt b l = true) : allKeyLt a l = true := by
  induction l with
  | nil => rfl
  | cons q qs ih =>
    simp only [allKeyLt, Bool.and_eq_true] at h ⊢
    exact ⟨strLt_trans a b q.1 hab h.1, ih h.2⟩

theorem allKeyLt_insertPair (k : String) (p : String × String) (l : List (String × String)) :
    allKeyLt k (insertPair p l) = (strLt k p.1 && allKeyLt k l) := by
  induction l with
  | nil => simp [insertPair, allKeyLt]
  | cons q qs ih =>
    cases h : strLt p.1 q.1
    · simp only [insertPair, h, Bool.false_eq_true, if_false, allKeyLt, ih]
      cases strLt k p.1 <;> cases strLt k q.1 <;> cases allKeyLt k qs <;> rfl
    · simp [insertPair, h, allKeyLt]

theorem insertPair_allLt (p : String × String) (l : List (String × String))
    (h : allKeyLt p.1 l = true) : insertPair p l = p :: l := by
  cases l with
  | nil => rfl
  | cons q qs =>
    simp only [allKeyLt, Bool.and_eq_true] at h
    simp [insertPair, h.1]

theorem map_fst_insertPair (p : String × String) (l : List (String × String)) (k : String) :
    containsStr ((insertPair p l).map Prod.fst) k =
      (p.1 == k || containsStr (l.map Prod.fst) k) := by
  induction l with
  | nil => simp [insertPair, containsStr]
  | cons q qs ih =>
    cases h : strLt p.1 q.1
    · simp only [insertPair, h, Bool.false_eq_true, if_false, List.map_cons, containsStr, ih]
      cases p.1 == k <;> cases q.1 == k <;> cases containsStr (qs.map Prod.fst) k <;> rfl
    · simp [insertPair, h, containsStr]

theorem containsStr_sortPairs (l : List (String × String)) (k : String) :
    containsStr ((sortPairs l).map Prod.fst) k = containsStr (l.map Prod.fst) k := by
  induction l with
  | nil => rfl
  | cons p ps ih =>
    simp only [sortPairs, map_fst_insertPair, ih, List.map_cons, containsStr]

theorem insertPair_sorted (p : String × String) (l : List (String × String))
    (hs : sortedKeysB l = true) (hmem : containsStr (l.map Prod.fst) p.1 = false) :
    sortedKeysB (insertPair p l) = true := by
  induction l with
  | nil => simp [insertPair, sortedKeysB, allKeyLt]
  | cons q qs ih =>
    simp only [sortedKeysB, Bool.and_eq_true] at hs
    simp only [List.map_cons, containsStr, Bool.or_eq_false_iff] at hmem
    cases hpq : strLt p.1 q.1
    · have hne : q.1 ≠ p.1 := by
        intro he
        rw [he] at hmem
        simp at hmem
      have hqp : strLt q.1 p.1 = true := by
        cases hqp' : strLt q.1 p.1
        · exact absurd (strLt_conn p.1 q.1 hpq hqp') (Ne.symm hne)
        · rfl
      simp only [insertPair, hpq, Bool.false_eq_true, if_false, sortedKeysB,
        allKeyLt_insertPair, hqp, Bool.true_and, Bool.and_eq_true]
      exact ⟨hs.1, ih hs.2 hmem.2⟩
    · simp only [insertPair, hpq, if_true, sortedKeysB, allKeyLt, hpq, Bool.true_and,
        Bool.and_eq_true]
      exact ⟨allKeyLt_trans p.1 q.1 qs hpq hs.1, hs.1, hs.2⟩

theorem sortPairs_sorted (l : List (String × String))
    (hnd : keysNodupB (l.map Prod.fst) = true) : sortedKeysB (sortPairs l) = true := by
  induction l with
  | nil => rfl
  | cons p ps ih =>
    simp only [List.map_cons, keysNodupB, Bool.and_eq_true] at hnd
    refine insertPair_sorted p (sortPairs ps) (ih hnd.2) ?_
    rw [containsStr_sortPairs]
    cases hc : containsStr (ps.map Prod.fst) p.1
    · rfl
    · rw [hc] at hnd
      simp at hnd

theorem sortPairs_of_sorted (l : List (String × String)) (hs : sortedKeysB l = true) :
    sortPairs l = l := by
  induction l with
  | nil => rfl
  | cons p ps ih =>
    simp only [sortedKeysB, Bool.and_eq_true] at hs
    simp only [sortPairs, ih hs.2]
    exact insertPair_allLt p ps hs.1

theorem sortPairs_idem (l : List (String × String))
    (hnd : keysNodupB (l.map Prod.fst) = true) : sortPairs (sortPairs l) = sortPairs l :=
  sortPairs_of_sorted _ (sortPairs_sorted l hnd)

theorem strBeq_false_symm (a b : String) (h : (a == b) = false) : (b == a) = false := by
  cases hb : b == a
  · rfl
  · have hba := eq_of_beq hb
    subst hba
    simp at h

theorem insertPair_comm_lt (p q : String × String) (hpq : strLt p.1 q.1 = true) :
    ∀ l, insertPair p (insertPair q l) = insertPair q (insertPair p l)
  | [] => by
    have hqp := strLt_asymm _ _ hpq
    simp [insertPair, hpq, hqp]
  | r :: rs => by
    have hqp := strLt_asymm _ _ hpq
    cases hqr : strLt q.1 r.1
    · cases hpr : strLt p.1 r.1
      · simp only [insertPair, hqr, hpr, hpq, hqp, Bool.false_eq_true, if_false, if_true]
        rw [insertPair_comm_lt p q hpq rs]
      · simp [insertPair, hqr, hpr, hpq, hqp]
    · have hpr : strLt p.1 r.1 = true := strLt_trans _ _ _ hpq hqr
      simp [insertPair, hqr, hpr, hpq, hqp]

theorem insertPair_comm (p q : String × String) (hne : (p.1 == q.1) = false)
    (l : List (String × String)) :
    insertPair p (insertPair q l) = insertPair q (insertPair p l) := by
  cases hpq : strLt p.1 q.1
  · cases hqp : strLt q.1 p.1
    · have he := strLt_conn _ _ hpq hqp
      rw [he] at hne
      simp at hne
    · exact (insertPair_comm_lt q p hqp l).symm
  · exact insertPair_comm_lt p q hpq l

theorem except_map_error {α β : Type} (f : α → β) (a : Except String α) (e : String)
    (h : Except.map f a = Except.error e) : a = Except.error e := by
  cases a with
  | error e2 => simpa [Except.map] using h
  | ok x => simp [Except.map] at h

theorem except_map_ok {α β : Type} (f : α → β) (a : Except String α) (b : β)
    (h : Except.map f a = Except.ok b) : ∃ x, a = Except.ok x ∧ f x = b := by
  cases a with
  | error e2 => simp [Except.map] at h
  | ok x =>
    simp only [Except.map, Except.ok.injEq] at h
    exact ⟨x, rfl, h⟩

mutual
theorem dumpVal_error : ∀ (v : PyVal) (e : String), dumpVal v = Except.error e → e = decErrMsg
  | .vstr _, _, h => nomatch h
  | .vint _, _, h => nomatch h
  | .vbool _, _, h => nomatch h
  | .vnone, _, h => nomatch h
  | .vfloat _, _, h => nomatch h
  | .vdec _, _, h => (Except.error.inj h).symm
  | .vlist xs, e, h => by
    simp only [dumpVal, bind, Except.bind] at h
    cases hd : dumpList xs with
    | error e2 =>
      rw [hd] at h
      exact (Except.error.inj h) ▸ dumpList_error xs e2 hd
    | ok parts =>
      rw [hd] at h
      exact nomatch h
  | .vdict es, e, h => by
    simp only [dumpVal, bind, Except.bind] at h
    cases hd : dumpEntries es with
    | error e2 =>
      rw [hd] at h
      exact (Except.error.inj h) ▸ dumpEntries_error es e2 hd
    | ok pairs =>
      rw [hd] at h
      exact nomatch h
theorem dumpList_error : ∀ (xs : PyList) (e : String), dumpList xs = Except.error e → e = decErrMsg
  | .nil, _, h => nomatch h
  | .cons x xs, e, h => by
    simp only [dumpList, bind, Except.bind] at h
    cases hx : dumpVal x with
    | error e2 =>
      rw [hx] at h
      exact (Except.error.inj h) ▸ dumpVal_error x e2 hx
    | ok s =>
      rw [hx] at h
      cases hxs : dumpList xs with
      | error e3 =>
        rw [hxs] at h
        exact (Except.error.inj h) ▸ dumpList_error xs e3 hxs
      | ok rest =>
        rw [hxs] at h
        exact nomatch h
theorem dumpEntries_error :
    ∀ (es : PyEntries) (e : String), dumpEntries es = Except.error e → e = decErrMsg
  | .nil, _, h => nomatch h
  | .cons _ v es, e, h => by
    simp only [dumpEntries, bind, Except.bind] at h
    cases hv : dumpVal v with
    | error e2 =>
      rw [hv] at h
      exact (Except.error.inj h) ▸ dumpVal_error v e2 hv
    | ok s =>
      rw [hv] at h
      cases hes : dumpEntries es with
      | error e3 =>
        rw [hes] at h
        exact (Except.error.inj h) ▸ dumpEntries_error es e3 hes
      | ok rest =>
        rw [hes] at h
        exact nomatch h
end

theorem keys_deepSortEntries : ∀ es : PyEntries, (deepSortEntries es).keys = es.keys
  | .nil => rfl
  | .cons k v es => by
    simp only [deepSortEntries, PyEntries.keys, keys_deepSortEntries es]

theorem containsStr_keys_insertEntry (k : String) (v : PyVal) (k2 : String) :
    ∀ es : PyEntries,
      containsStr (insertEntry k v es).keys k2 = (k == k2 || containsStr es.keys k2)
  | .nil => by simp [insertEntry, PyEntries.keys, containsStr]
  | .cons k3 v3 es => by
    cases h : strLt k k3
    · simp only [insertEntry, h, Bool.false_eq_true, if_false, PyEntries.keys, containsStr,
        containsStr_keys_insertEntry k v k2 es]
      cases k == k2 <;> cases k3 == k2 <;> cases containsStr es.keys k2 <;> rfl
    · simp [insertEntry, h, PyEntries.keys, containsStr]

theorem containsStr_keys_sortEntries (k2 : String) :
    ∀ es : PyEntries, containsStr (sortEntries es).keys k2 = containsStr es.keys k2
  | .nil => rfl
  | .cons k v es => by
    simp only [sortEntries, containsStr_keys_insertEntry, PyEntries.keys, containsStr,
      containsStr_keys_sortEntries k2 es]

theorem dumpEntries_cons_err (k : String) (v : PyVal) (es : PyEntries) (e : String)
    (hv : dumpVal v = Except.error e) :
    dumpEntries (PyEntries.cons k v es) = Except.error e := by
  simp [dumpEntries, bind, Except.bind, hv]

theorem dumpEntries_cons_err2 (k : String) (v : PyVal) (es : PyEntries) (s e : String)
    (hv : dumpVal v = Except.ok s) (hes : dumpEntries es = Except.error e) :
    dumpEntries (PyEntries.cons k v es) = Except.error e := by
  simp [dumpEntries, bind, Except.bind, hv, hes]

theorem dumpEntries_cons_ok (k : String) (v : PyVal) (es : PyEntries) (s : String)
    (rest : List (String × String)) (hv : dumpVal v = Except.ok s)
    (hes : dumpEntries es = Except.ok rest) :
    dumpEntries (PyEntries.cons k v es) = Except.ok ((k, s) :: rest) := by
  simp [dumpEntries, bind, Except.bind, hv, hes]

theorem dumpEntries_insertEntry (k : String) (v : PyVal) :
    ∀ es : PyEntries, containsStr es.keys k = false →
      Except.map sortPairs (dumpEntries (insertEntry k v es)) =
        Except.map sortPairs (dumpEntries (PyEntries.cons k v es))
  | .nil, _ => rfl
  | .cons k2 v2 es, hk => by
    simp only [PyEntries.keys, containsStr, Bool.or_eq_false_iff] at hk
    have ih := dumpEntries_insertEntry k v es hk.2
    cases hlt : strLt k k2
    · simp only [insertEntry, hlt, Bool.false_eq_true, if_false]
      cases hv : dumpVal v with
      | error e =>
        rw [dumpEntries_cons_err k v (.cons k2 v2 es) e hv]
        cases hv2 : dumpVal v2 with
        | error e2 =>
          rw [dumpEntries_cons_err k2 v2 (insertEntry k v es) e2 hv2]
          simp only [Except.map]
          rw [dumpVal_error v2 e2 hv2, dumpVal_error v e hv]
        | ok s2 =>
          have hIns : dumpEntries (insertEntry k v es) = Except.error e := by
            apply except_map_error sortPairs
            rw [ih, dumpEntries_cons_err k v es e hv]
            rfl
          rw [dumpEntries_cons_err2 k2 v2 (insertEntry k v es) s2 e hv2 hIns]
      | ok s =>
        cases hv2 : dumpVal v2 with
        | error e2 =>
          rw [dumpEntries_cons_err k2 v2 (insertEntry k v es) e2 hv2,
            dumpEntries_cons_err2 k v (.cons k2 v2 es) s e2 hv
              (dumpEntries_cons_err k2 v2 es e2 hv2)]
        | ok s2 =>
          cases hes : dumpEntries es with
          | error e3 =>
            have hIns : dumpEntries (insertEntry k v es) = Except.error e3 := by
              apply except_map_error sortPairs
              rw [ih, dumpEntries_cons_err2 k v es s e3 hv hes]
              rfl
            rw [dumpEntries_cons_err2 k2 v2 (insertEntry k v es) s2 e3 hv2 hIns,
              dumpEntries_cons_err2 k v (.cons k2 v2 es) s e3 hv
                (dumpEntries_cons_err2 k2 v2 es s2 e3 hv2 hes)]
          | ok rest =>
            obtain ⟨L, hL, hLs⟩ := except_map_ok sortPairs (dumpEntries (insertEntry k v es))
              (sortPairs ((k, s) :: rest))
              (ih.trans (by rw [dumpEntries_cons_ok k v es s rest hv hes]; rfl))
            rw [dumpEntries_cons_ok k2 v2 (insertEntry k v es) s2 L hv2 hL,
              dumpEntries_cons_ok k v (.cons k2 v2 es) s ((k2, s2) :: rest) hv
                (dumpEntries_cons_ok k2 v2 es s2 rest hv2 hes)]
            simp only [Except.map, Except.ok.injEq]
            simp only [sortPairs]
            rw [hLs]
            simp only [sortPairs]
            exact insertPair_comm (k2, s2) (k, s) hk.1 (sortPairs rest)
    · simp [insertEntry, hlt]

theorem dumpEntries_sortEntries :
    ∀ es : PyEntries, keysNodupB es.keys = true →
      Except.map sortPairs (dumpEntries (sortEntries es)) =
        Except.map sortPairs (dumpEntries es)
  | .nil, _ => rfl
  | .cons k v es, hnd => by
    simp only [PyEntries.keys, keysNodupB, Bool.and_eq_true, Bool.not_eq_true'] at hnd
    have ih := dumpEntries_sortEntries es hnd.2
    have hmem : containsStr (sortEntries es).keys k = false := by
      rw [containsStr_keys_sortEntries]
      exact hnd.1
    have h1 := dumpEntries_insertEntry k v (sortEntries es) hmem
    simp only [sortEntries]
    rw [h1]
    cases hv : dumpVal v with
    | error e =>
      rw [dumpEntries_cons_err k v (sortEntries es) e hv, dumpEntries_cons_err k v es e hv]
    | ok s =>
      cases hes : dumpEntries es with
      | error e3 =>
        have hS : dumpEntries (sortEntries es) = Except.error e3 := by
          apply except_map_error sortPairs
          rw [ih, hes]
          rfl
        rw [dumpEntries_cons_err2 k v (sortEntries es) s e3 hv hS,
          dumpEntries_cons_err2 k v es s e3 hv hes]
      | ok rest =>
        obtain ⟨L, hL, hLs⟩ := except_map_ok sortPairs (dumpEntries (sortEntries es))
          (sortPairs rest) (ih.trans (by rw [hes]; rfl))
        rw [dumpEntries_cons_ok k v (sortEntries es) s L hv hL,
          dumpEntries_cons_ok k v es s rest hv hes]
        simp only [Except.map, Except.ok.injEq, sortPairs]
        rw [hLs]

theorem dumpVal_vdict_err (es : PyEntries) (e : String)
    (h : dumpEntries es = Except.error e) :
    dumpVal (PyVal.vdict es) = Except.error e := by
  simp [dumpVal, bind, Except.bind, h]

theorem dumpVal_vdict_ok (es : PyEntries) (pairs : List (String × String))
    (h : dumpEntries es = Except.ok pairs) :
    dumpVal (PyVal.vdict es) =
      Except.ok (wrapObj (String.intercalate "," ((sortPairs pairs).map renderPair))) := by
  simp [dumpVal, bind, Except.bind, h]

mutual
theorem dumpVal_deepSort : ∀ v : PyVal, dkV v = true → dumpVal (deepSortVal v) = dumpVal v
  | .vstr _, _ => rfl
  | .vint _, _ => rfl
  | .vbool _, _ => rfl
  | .vnone, _ => rfl
  | .vfloat _, _ => rfl
  | .vdec _, _ => rfl
  | .vlist xs, h => by
    simp only [deepSortVal, dumpVal, dumpList_deepSort xs (by simpa [dkV] using h)]
  | .vdict es, h => by
    simp only [dkV, Bool.and_eq_true] at h
    have hnd : keysNodupB (deepSortEntries es).keys = true := by
      rw [keys_deepSortEntries]
      exact h.1
    have hE : Except.map sortPairs (dumpEntries (sortEntries (deepSortEntries es))) =
        Except.map sortPairs (dumpEntries es) := by
      rw [dumpEntries_sortEntries (deepSortEntries es) hnd, dumpEntries_deepSort es h.2]
    show dumpVal (PyVal.vdict (sortEntries (deepSortEntries es))) = dumpVal (PyVal.vdict es)
    cases hes : dumpEntries es with
    | error e =>
      have hS : dumpEntries (sortEntries (deepSortEntries es)) = Except.error e := by
        apply except_map_error sortPairs
        rw [hE, hes]
        rfl
      rw [dumpVal_vdict_err _ _ hS, dumpVal_vdict_err _ _ hes]
    | ok pairs =>
      obtain ⟨L, hL, hLs⟩ := except_map_ok sortPairs
        (dumpEntries (sortEntries (deepSortEntries es))) (sortPairs pairs)
        (hE.trans (by rw [hes]; rfl))
      rw [dumpVal_vdict_ok _ _ hL, dumpVal_vdict_ok _ _ hes, hLs]
theorem dumpList_deepSort :
    ∀ xs : PyList, dkL xs = true → dumpList (deepSortList xs) = dumpList xs
  | .nil, _ => rfl
  | .cons x xs, h => by
    simp only [dkL, Bool.and_eq_true] at h
    simp only [deepSortList, dumpList, dumpVal_deepSort x h.1, dumpList_deepSort xs h.2]
theorem dumpEntries_deepSort :
    ∀ es : PyEntries, dkE es = true → dumpEntries (deepSortEntries es) = dumpEntries es
  | .nil, _ => rfl
  | .cons k v es, h => by
    simp only [dkE, Bool.and_eq_true] at h
    simp only [deepSortEntries, dumpEntries, dumpVal_deepSort v h.1,
      dumpEntries_deepSort es h.2]
end

mutual
theorem normVal_deepSort : ∀ v : PyVal, nlV v = true → normVal v = deepSortVal v
  | .vstr _, _ => rfl
  | .vint _, _ => rfl
  | .vbool _, _ => rfl
  | .vnone, _ => rfl
  | .vfloat f, h => by
    have hf : normFloat f = f := by
      simp only [nlV, beq_iff_eq] at h
      exact h
    simp only [normVal, deepSortVal, hf]
  | .vdec _, h => by simp [nlV] at h
  | .vlist xs, h => by
    simp only [normVal, deepSortVal, normList_deepSort xs (by simpa [nlV] using h)]
  | .vdict es, h => by
    simp only [normVal, deepSortVal, normEntries_deepSort es (by simpa [nlV] using h)]
theorem normList_deepSort : ∀ xs : PyList, nlL xs = true → normList xs = deepSortList xs
  | .nil, _ => rfl
  | .cons x xs, h => by
    simp only [nlL, Bool.and_eq_true] at h
    simp only [normList, deepSortList, normVal_deepSort x h.1, normList_deepSort xs h.2]
theorem normEntries_deepSort :
    ∀ es : PyEntries, nlE es = true → normEntries es = deepSortEntries es
  | .nil, _ => rfl
  | .cons k v es, h => by
    simp only [nlE, Bool.and_eq_true] at h
    simp only [normEntries, deepSortEntries, normVal_deepSort v h.1,
      normEntries_deepSort es h.2]
end


/-- Evaluation of `validate` for a present, non-empty token with no stored
record. -/
theorem validateGuard_miss (t : String) (st : List (String × TGRecord))
    (now windowSeconds ledgerCounter : Int) (hne : (t == "") = false)
    (hrec : alistGet st (sha256Hex t) = none) :
    validateGuard (some t) st now windowSeconds ledgerCounter =
      (alistSet st (sha256Hex t)
        ⟨truncMs now, ledgerCounter, sha256Hex t ++ ":" ++ intStr ledgerCounter⟩,
        .ok (sha256Hex t ++ ":" ++ intStr ledgerCounter)) := by
  simp only [validateGuard, hne, Bool.false_eq_true, if_false, hrec]

/-- Evaluation of `validate` for a present, non-empty token with a stored
record. -/
theorem validateGuard_hit (t : String) (st : List (String × TGRecord))
    (now windowSeconds ledgerCounter : Int) (r : TGRecord) (hne : (t == "") = false)
    (hrec : alistGet st (sha256Hex t) = some r) :
    validateGuard (some t) st now windowSeconds ledgerCounter =
      (if windowSeconds * 1000000 < now - r.last_seen then (st, .error tokenExpiredMsg)
      else if r.last_counter == ledgerCounter then (st, .error tokenReplayMsg)
      else
        (alistSet st (sha256Hex t)
          ⟨truncMs now, ledgerCounter, sha256Hex t ++ ":" ++ intStr ledgerCounter⟩,
          .ok (sha256Hex t ++ ":" ++ intStr ledgerCounter))) := by
  simp only [validateGuard, hne, Bool.false_eq_true, if_false, hrec]

/-- Inversion principle for a successful `write_receipt`: a success determines
every artifact — the normalized payload and its hash, the canonical event and
its JSON, the signed body, the entry hash, the prepared Merkle update, and the
exact world written (log append, `INSERT OR IGNORE` index row, committed
Merkle state). -/
theorem writeReceipt_ok_elim {env : WriteEnv} {w : World} {et : String} {p : PyEntries}
    {ash : String} {w1 : World} {r : ReceiptR} {motive : Prop}
    (h : writeReceipt env w et p ash = .ok (w1, r))
    (k : ∀ ph cstr bj ej (mu : MerkleUpdate),
      verifyInputs et ash = .ok () →
      canonicalPayloadHash (normalizePayload p) = .ok ph →
      canonicalJson (.vdict (canonicalEventEntries et env.timestamp (normalizePayload p)
        ph ash env.keyId)) = .ok cstr →
      canonicalJson (.vdict (ledgerBodyEntries (canonicalEventEntries et env.timestamp
        (normalizePayload p) ph ash env.keyId) (env.sign cstr)
        w.merkle.last_leaf_hash)) = .ok bj →
      prepareUpdate w.merkle (sha256Hex bj) = .ok mu →
      canonicalJson (.vdict (ledgerEntryEntries (ledgerBodyEntries (canonicalEventEntries
        et env.timestamp (normalizePayload p) ph ash env.keyId) (env.sign cstr)
        w.merkle.last_leaf_hash) (sha256Hex bj) mu.new_root)) = .ok ej →
      w1 = ⟨w.ledgerEntries ++ [ledgerEntryEntries (ledgerBodyEntries (canonicalEventEntries
          et env.timestamp (normalizePayload p) ph ash env.keyId) (env.sign cstr)
          w.merkle.last_leaf_hash) (sha256Hex bj) mu.new_root],
        w.ledgerBytes + (utf8 ej).length + 1,
        (if w.index.any (fun row => row.ledger_offset == w.ledgerBytes ||
            (row.state_hash == ash && row.payload_hash == ph)) then w.index
          else w.index ++ [⟨w.ledgerBytes, et, ash, ph, env.timestamp, mu.new_root,
            sha256Hex bj, w.merkle.last_leaf_hash⟩]),
        mu.new_state⟩ →
      r = ⟨et, env.timestamp, normalizePayload p, ph, ash, env.sign cstr, w.ledgerBytes,
        w.merkle.last_leaf_hash, sha256Hex bj, mu.new_root⟩ →
      motive) : motive := by
  simp only [writeReceipt, bind, Except.bind] at h
  cases hvi : verifyInputs et ash with
  | error e => simp [hvi] at h
  | ok u =>
    cases u
    simp only [hvi] at h
    cases hph : canonicalPayloadHash (normalizePayload p) with
    | error e => simp [hph] at h
    | ok ph =>
      simp only [hph] at h
      cases hce : canonicalJson (.vdict (canonicalEventEntries et env.timestamp
          (normalizePayload p) ph ash env.keyId)) with
      | error e => simp [hce] at h
      | ok cstr =>
        simp only [hce] at h
        cases hbj : canonicalJson (.vdict (ledgerBodyEntries (canonicalEventEntries et
            env.timestamp (normalizePayload p) ph ash env.keyId) (env.sign cstr)
            w.merkle.last_leaf_hash)) with
        | error e => simp [hbj] at h
        | ok bj =>
          simp only [hbj] at h
          cases hmu : prepareUpdate w.merkle (sha256Hex bj) with
          | error e => simp [hmu] at h
          | ok mu =>
            simp only [hmu] at h
            cases hej : canonicalJson (.vdict (ledgerEntryEntries (ledgerBodyEntries
                (canonicalEventEntries et env.timestamp (normalizePayload p) ph ash
                env.keyId) (env.sign cstr) w.merkle.last_leaf_hash) (sha256Hex bj)
                mu.new_root)) with
            | error e => simp [hej] at h
            | ok ej =>
              simp only [hej, Except.ok.injEq] at h
              exact k ph cstr bj ej mu hvi hph hce hbj hmu hej
                (congrArg Prod.fst h).symm (congrArg Prod.snd h).symm

/-! ## Claim C4 -/

/-- C4 counterexample: on the three-peak state `⟨3, ["aa","bb","cc"], none⟩`
the source's `root()` is the left fold `node(node(aa,bb),cc)`, which differs
from the claim's right fold `node(aa,node(bb,cc))`. -/
theorem merkle_root_not_right_fold :
    MerkleState.root ⟨3, ["aa", "bb", "cc"], none⟩ ≠
      rootRightFoldClaim ⟨3, ["aa", "bb", "cc"], none⟩ := by decide

/-- C4 (amended): `root()` of a state with no peaks is
`SHA256("TESSRAX|MERKLE|EMPTY")`, and with peaks `[p0, ..., pk]` it is the
*left* fold `node(...node(node(p0,p1),p2)..., pk)` under
`node(L,R) = SHA256("node:"+L+":"+R)`. -/
theorem merkle_root_is_left_fold (s : MerkleState) : s.root = rootLeftFoldSpec s := by
  cases s with
  | mk n peaks ll =>
    cases peaks with
    | nil => rfl
    | cons p rest =>
      simp only [MerkleState.root, rootLeftFoldSpec]
      exact foldl_hashNode_eq_leftFold rest p

/-! ## Claim C3 -/

/-- C3: two successful `write_receipt` calls with the same
`(audited_state_hash, payload_hash)` pair leave two entries in the log but
only one row in the index (`INSERT OR IGNORE` against
`UNIQUE(state_hash, payload_hash)` silently drops the second row), while the
Merkle accumulator counts both — so index row count does not equal log entry
count, contradicting the claim and spec invariant I4/P7. -/
theorem duplicate_pair_drops_index_row :
    dupW.map (fun w => (w.ledgerEntries.length, w.index.length, w.merkle.entry_count)) =
      some (2, 1, 2) := by decide

/-! ## Claim C6 -/

/-- C6 counterexample: with a record whose `last_counter` equals the incoming
`ledger_counter` *and* whose `last_seen` lies beyond the window
(`now = 400 s`, `window = 300 s`), `validate` raises the expiry error, not the
replay error the claim's ordering promises. -/
theorem token_guard_claim_order_cex :
    validateGuard (some "alpha") tgSt0 400000000 300 7 ≠
      tokenGuardSpecClaim (some "alpha") tgSt0 400000000 300 7 := by decide

/-- C6 (amended): the guard's decision list tests expiry *first*: a missing
token fails; an existing record older than the window fails with expiry even
if the counter matches; a replay error fires only within the window on a
counter match; otherwise the record is refreshed and `digest:counter`
returned. -/
theorem token_guard_decision_list (tok : Option String) (st : List (String × TGRecord))
    (now windowSeconds ledgerCounter : Int) :
    validateGuard tok st now windowSeconds ledgerCounter =
      tokenGuardSpecAmended tok st now windowSeconds ledgerCounter := by
  cases tok with
  | none => rfl
  | some t =>
    by_cases hte : t = ""
    · subst hte
      rfl
    · have hne : (t == "") = false := by simp [hte]
      cases hrec : alistGet st (sha256Hex t) with
      | none =>
        rw [validateGuard_miss t st now windowSeconds ledgerCounter hne hrec]
        simp only [tokenGuardSpecAmended, hne, Bool.false_eq_true, if_false, hrec]
      | some r =>
        rw [validateGuard_hit t st now windowSeconds ledgerCounter r hne hrec]
        simp only [tokenGuardSpecAmended, hne, Bool.false_eq_true, if_false, hrec]
        by_cases hexp : windowSeconds * 1000000 < now - r.last_seen
        · simp [hexp]
        · by_cases hctr : r.last_counter = ledgerCounter
          · simp [hexp, hctr]
          · simp [hexp, hctr]

/-! ## Claim C10 -/

/-- C10: `validate` is atomic with respect to its persisted state — every
raising path returns the state file unchanged, and the per-digest record
`{last_seen, last_counter, last_tag}` is written exactly on the success path
that returns the tag. -/
theorem token_guard_writes_only_on_success (tok : Option String)
    (st : List (String × TGRecord)) (now windowSeconds ledgerCounter : Int) :
    (∀ e, (validateGuard tok st now windowSeconds ledgerCounter).2 = .error e →
      (validateGuard tok st now windowSeconds ledgerCounter).1 = st) ∧
    (∀ t tag, tok = some t →
      (validateGuard tok st now windowSeconds ledgerCounter).2 = .ok tag →
      (validateGuard tok st now windowSeconds ledgerCounter).1 =
        alistSet st (sha256Hex t) ⟨truncMs now, ledgerCounter, tag⟩) := by
  cases tok with
  | none =>
    exact ⟨fun _ _ => rfl, fun t tag ht _ => (nomatch ht)⟩
  | some t =>
    by_cases hte : t = ""
    · subst hte
      exact ⟨fun _ _ => rfl, fun t' tag ht' htag => (nomatch htag)⟩
    · have hne : (t == "") = false := by simp [hte]
      cases hrec : alistGet st (sha256Hex t) with
      | none =>
        rw [validateGuard_miss t st now windowSeconds ledgerCounter hne hrec]
        refine ⟨fun e he => (nomatch he), fun t' tag ht' htag => ?_⟩
        cases ht'
        cases htag
        rfl
      | some r =>
        rw [validateGuard_hit t st now windowSeconds ledgerCounter r hne hrec]
        by_cases hexp : windowSeconds * 1000000 < now - r.last_seen
        · rw [if_pos hexp]
          exact ⟨fun _ _ => rfl, fun t' tag ht' htag => (nomatch htag)⟩
        · rw [if_neg hexp]
          by_cases hctr : r.last_counter = ledgerCounter
          · rw [if_pos (show (r.last_counter == ledgerCounter) = true by simp [hctr])]
            exact ⟨fun _ _ => rfl, fun t' tag ht' htag => (nomatch htag)⟩
          · rw [if_neg (show ¬ (r.last_counter == ledgerCounter) = true by simp [hctr])]
            refine ⟨fun e he => (nomatch he), fun t' tag ht' htag => ?_⟩
            cases ht'
            cases htag
            rfl

/-- Witness for C10: the missing-token failure leaves an empty state file
empty, and a fresh success writes exactly the new record. -/
theorem token_guard_writes_only_on_success_witness :
    (validateGuard none [] 0 300 0).1 = [] ∧
    (validateGuard (some "alpha") [] 5000 300 7).1 =
      alistSet [] (sha256Hex "alpha") ⟨truncMs 5000, 7, sha256Hex "alpha" ++ ":" ++ intStr 7⟩ :=
  ⟨(token_guard_writes_only_on_success none [] 0 300 0).1 tokenMissingMsg rfl,
   (token_guard_writes_only_on_success (some "alpha") [] 5000 300 7).2 "alpha"
     (sha256Hex "alpha" ++ ":" ++ intStr 7) rfl rfl⟩

/-- Any log whose first entry has `previous_entry_hash = null` is rejected by
the replay loop, which expects the sentinel `"0" * 64` there. -/
theorem parallelReplay_null_genesis (e : PyEntries) (rest : List PyEntries) (rh : String)
    (hrh : computeEntryHashForReplay e = .ok rh)
    (hprev : e.lookup "previous_entry_hash" = some .vnone) :
    parallelReplayRoot (e :: rest) =
      .error "previous_entry_hash mismatch during replay." := by
  unfold parallelReplayRoot parallelReplayLoop
  rw [hrh]
  simp only [hprev, Option.isNone_some, Bool.false_eq_true, if_false, Option.getD_some]
  have hcond : (PyVal.vnone ≠ PyVal.vstr zeros64) = True :=
    eq_true (fun hh => PyVal.noConfusion hh)
  simp only [hcond, if_true]
  rfl

/-! ## Claim C1 -/

/-- Stage 1 rejects every entry of the writer's shape: the required-field
loop reaches `epoch_id`, which the writer never emits. -/
theorem checkEntry_written_missing_epoch (venv : VerifyEnv) (epochSt : EpochState)
    (lineNo recLen : Nat) (prevTs : Option Int) (merkle : MerkleState)
    (prevHash : Option String) (et ts : String) (norm : PyEntries)
    (ph ash kid sig : String) (prev : Option String) (eh mr : String) :
    checkEntry venv epochSt lineNo recLen prevTs merkle prevHash
      (ledgerEntryEntries (ledgerBodyEntries (canonicalEventEntries et ts norm ph ash kid)
        sig prev) eh mr) =
      .error (.lve ("Missing field epoch_id at line " ++ natStr lineNo)) := rfl

/-- C1: a ledger produced by a successful `write_receipt` is *rejected* by
`verify_ledger` — the written entries carry no `epoch_id` (nor
`governance_freshness_tag`), which stage 1 requires of every entry, so
verification returns `False` (already for N = 1, against any index rows and
any persisted Merkle state; the repo's own test asserts these fields are
present).  This contradicts the claim and spec P1. -/
theorem verify_rejects_written_ledger (venv : VerifyEnv) (epochSt : EpochState)
    (env : WriteEnv) (et : String) (p : PyEntries) (ash : String) (w1 : World)
    (r : ReceiptR) (h : writeReceipt env World.empty et p ash = .ok (w1, r))
    (idx : List IndexRow) (mst : MerkleState) :
    verifyLedger venv epochSt w1.ledgerEntries idx mst = .ok false := by
  refine writeReceipt_ok_elim h ?_
  intro ph cstr bj ej mu _ _ _ _ _ _ hw _
  subst hw
  show verifyLedger venv epochSt
    [ledgerEntryEntries (ledgerBodyEntries (canonicalEventEntries et env.timestamp
      (normalizePayload p) ph ash env.keyId) (env.sign cstr)
      World.empty.merkle.last_leaf_hash) (sha256Hex bj) mu.new_root] idx mst = .ok false
  unfold verifyLedger readLedger readLedgerLoop
  rw [checkEntry_written_missing_epoch]
  rfl

/-- Witness for C1 at a concrete genesis write. -/
theorem verify_rejects_written_ledger_witness :
    verifyLedger venv0 EpochState.empty w1c.ledgerEntries w1c.index w1c.merkle = .ok false :=
  verify_rejects_written_ledger venv0 EpochState.empty env0 "STATE_AUDITED" pay0 zeros64
    w1c r1c (by rfl) w1c.index w1c.merkle

/-! ## Claim C2 -/

set_option maxHeartbeats 40000000 in
/-- C2 counterexample: a concrete entry carrying a
`governance_freshness_tag` that the verifier *accepts* at stage 1 (signature
oracle accepting, timestamps parsing), whose stored `entry_hash` is the
code's rule — hashing the nine-key body *without* the tag — and differs from
the claim's rule, which hashes the tag as well. -/
theorem verifier_accepts_entry_violating_claim_rule :
    (match checkEntry cexEnv EpochState.empty 1 0 none MerkleState.empty none eAcc with
      | .ok _ => true
      | .error _ => false) = true ∧
    eAcc.lookup "entry_hash" = some (.vstr ehashC) ∧
    computeEntryHash eAcc = .ok ehashC ∧
    computeEntryHashClaim eAcc ≠ .ok ehashC := by
  refine ⟨by decide, by decide, by decide, by decide⟩

/-- C2 (amended): for every entry produced by `write_receipt`, the stored
`entry_hash` is SHA-256 of the canonical JSON of the signed body plus
`previous_entry_hash` — *excluding* `governance_freshness_tag` (which the
writer does not even emit) as well as `entry_hash`, `merkle_root` and
`epoch_id` — and the verifier's recomputation `compute_entry_hash` agrees
with it on the written entry. -/
theorem written_entry_hash_matches_verifier (env : WriteEnv) (w : World) (et : String)
    (p : PyEntries) (ash : String) (w1 : World) (r : ReceiptR)
    (h : writeReceipt env w et p ash = .ok (w1, r)) :
    ∃ e, w1.ledgerEntries = w.ledgerEntries ++ [e] ∧
      computeEntryHash e = .ok r.entry_hash ∧
      e.lookup "entry_hash" = some (.vstr r.entry_hash) ∧
      e.lookup "governance_freshness_tag" = none := by
  refine writeReceipt_ok_elim h ?_
  intro ph cstr bj ej mu _ _ _ hbj _ _ hw hr
  subst hw
  subst hr
  refine ⟨_, rfl, ?_, rfl, rfl⟩
  unfold computeEntryHash
  have hbody : buildBody bodyKeys (ledgerEntryEntries (ledgerBodyEntries
      (canonicalEventEntries et env.timestamp (normalizePayload p) ph ash env.keyId)
      (env.sign cstr) w.merkle.last_leaf_hash) (sha256Hex bj) mu.new_root) =
      ledgerBodyEntries (canonicalEventEntries et env.timestamp (normalizePayload p) ph ash
        env.keyId) (env.sign cstr) w.merkle.last_leaf_hash := rfl
  rw [hbody, hbj]
  rfl

/-- Witness for the amended C2 at a concrete genesis write. -/
theorem written_entry_hash_matches_verifier_witness :
    ∃ e, w1c.ledgerEntries = World.empty.ledgerEntries ++ [e] ∧
      computeEntryHash e = .ok r1c.entry_hash ∧
      e.lookup "entry_hash" = some (.vstr r1c.entry_hash) ∧
      e.lookup "governance_freshness_tag" = none :=
  written_entry_hash_matches_verifier env0 World.empty "STATE_AUDITED" pay0 zeros64
    w1c r1c (by rfl)

/-! ## Claim C5 -/

/-- C5: `parallel_replay_root` *rejects* every log `write_receipt` produces:
the genesis entry has `previous_entry_hash = null`, while the replay helper
demands the sentinel `"0" * 64` (and its hash recomputation is circular,
hashing the whole entry including `entry_hash` and `merkle_root`; the module
even imports the nonexistent `canonical_serialize`).  So it raises
`LedgerRepairError` instead of returning the persisted root. -/
theorem parallel_replay_rejects_written_genesis (env : WriteEnv) (et : String)
    (p : PyEntries) (ash : String) (w1 : World) (r : ReceiptR)
    (h : writeReceipt env World.empty et p ash = .ok (w1, r)) :
    parallelReplayRoot w1.ledgerEntries = .error "previous_entry_hash mismatch during replay." := by
  refine writeReceipt_ok_elim h ?_
  intro ph cstr bj ej mu _ _ _ _ _ hej hw _
  subst hw
  have hrh : computeEntryHashForReplay (ledgerEntryEntries (ledgerBodyEntries
      (canonicalEventEntries et env.timestamp (normalizePayload p) ph ash env.keyId)
      (env.sign cstr) World.empty.merkle.last_leaf_hash) (sha256Hex bj) mu.new_root) =
      .ok (sha256Hex ej) := by
    unfold computeEntryHashForReplay canonicalSerialize
    rw [hej]
    rfl
  exact parallelReplay_null_genesis _ [] _ hrh rfl

/-- Witness for C5 at a concrete genesis write. -/
theorem parallel_replay_rejects_written_genesis_witness :
    parallelReplayRoot w1c.ledgerEntries =
      .error "previous_entry_hash mismatch during replay." :=
  parallel_replay_rejects_written_genesis env0 "STATE_AUDITED" pay0 zeros64 w1c r1c (by rfl)

/-! ## Claim C8 -/

/-- C8: `rotate_key` never consults `TESSRAX_REQUIRED_APPROVERS` — for
*every* value of that configuration (in particular `"alice,bob"`), a rotation
whose governance token is just `"alice"` (matching the environment token)
succeeds, and the saved approval record stores only the token digest, never a
split approver list.  This contradicts the claim (and spec §4.3 step 7 /
§6 `REQUIRED_APPROVERS`); the repo's own test
`test_multisig_rotation_and_token_guard` expects a stored `approvals` list. -/
theorem rotate_key_ignores_required_approvers (approvers : Option String) :
    rotateKey
      ⟨some "alice", approvers, none, none, 0, ts0, fun _ => none, fun _ _ => "", fun _ => ""⟩
      RegState.empty "scheduled rotation" "alice" (some "bravo") false =
      .ok (⟨some DEFAULT_POLICY, some 0, some (hoursToMicros 720), some "bravo",
        [("bravo", ⟨some "active", some 0, some 0, some DEFAULT_POLICY,
          some (0, hoursToMicros 720), none, none,
          some ⟨AUDITOR_IDENTITY, sha256Hex "alice", 0⟩, some "scheduled rotation"⟩)]⟩,
        "bravo") := rfl

/-! ## Claim C7 -/

/-- C7: `record_entry` is idempotent on a present `entry_hash` (the stored
epoch id is returned, the state is untouched and no snapshot is written), and
on a fresh hash it assigns `EPOCH-<20-digit counter>-<hash[:16]>`, increments
the counter by exactly one, appends the single new table row (keeping keys
pairwise distinct), and snapshots the merkle state. -/
theorem epoch_record_entry_idempotent_monotone (st : EpochState) (h ts now : String)
    (ms : MerkleState) (hlen : h.length = 64) :
    (∀ r, alistGet st.entries h = some r →
      recordEntry st h ts ms now = .ok (r.epoch_id, st, none)) ∧
    (alistGet st.entries h = none →
      recordEntry st h ts ms now =
        .ok (epochIdFor st.next_epoch h,
          ⟨st.next_epoch + 1,
            st.entries ++ [(h, ⟨epochIdFor st.next_epoch h, ts, ms.root⟩)], some now⟩,
          some ("merkle_state-" ++ epochIdFor st.next_epoch h ++ ".json", ms)) ∧
      (keysNodupB (st.entries.map Prod.fst) = true →
        keysNodupB ((st.entries ++ [(h, (⟨epochIdFor st.next_epoch h, ts, ms.root⟩ : EpochRec))]).map
          Prod.fst) = true)) := by
  constructor
  · intro r hr
    simp [recordEntry, hlen, hr]
  · intro hnone
    constructor
    · simp [recordEntry, hlen, hnone]
    · intro hnd
      rw [List.map_append]
      simp only [List.map_cons, List.map_nil]
      rw [keysNodupB_append_singleton]
      rw [hnd, alistGet_none_not_mem st.entries h hnone]
      rfl

/-- Witness for C7: a stored hash is returned idempotently, and a fresh hash
on the empty table gets epoch id zero with the counter moving to one. -/
theorem epoch_record_entry_witness :
    recordEntry ⟨1, [(zeros64, ⟨"E-stored", ts0, "r"⟩)], none⟩ zeros64 ts0 MerkleState.empty ts0 =
      .ok ("E-stored", ⟨1, [(zeros64, ⟨"E-stored", ts0, "r"⟩)], none⟩, none) ∧
    recordEntry EpochState.empty zeros64 ts0 MerkleState.empty ts0 =
      .ok (epochIdFor 0 zeros64,
        ⟨1, [(zeros64, ⟨epochIdFor 0 zeros64, ts0, MerkleState.empty.root⟩)], some ts0⟩,
        some ("merkle_state-" ++ epochIdFor 0 zeros64 ++ ".json", MerkleState.empty)) :=
  ⟨(epoch_record_entry_idempotent_monotone ⟨1, [(zeros64, ⟨"E-stored", ts0, "r"⟩)], none⟩
      zeros64 ts0 ts0 MerkleState.empty (by decide)).1 ⟨"E-stored", ts0, "r"⟩ (by decide),
   ((epoch_record_entry_idempotent_monotone EpochState.empty zeros64 ts0 ts0 MerkleState.empty
      (by decide)).2 rfl).1⟩

/-- C9 (corrected statement): canonical JSON is stable under map key
reordering — any two payload mappings with distinct keys in every nested dict
and the same recursively key-sorted form serialize to the same result,
unconditionally, errors included (a `Decimal` leaf raises the same
`TypeError` on both sides) — and `canonical_json` agrees with
`canonical_json ∘ normalize_payload` on every payload whose numeric leaves
are already in normalized form (no `Decimal` leaf, no float moved by
`_normalize_float`, such as `-0.0`); the companion counterexample shows the
agreement fails without that proviso, refuting the unconditional claim. -/
theorem canonical_json_stable (x y : PyEntries)
    (hdx : dkV (PyVal.vdict x) = true) (hdy : dkV (PyVal.vdict y) = true)
    (hxy : deepSortVal (PyVal.vdict x) = deepSortVal (PyVal.vdict y)) :
    canonicalJson (PyVal.vdict x) = canonicalJson (PyVal.vdict y) ∧
      (nlV (PyVal.vdict x) = true →
        canonicalJson (PyVal.vdict x) = canonicalJson (PyVal.vdict (normalizePayload x))) := by
  have hx := dumpVal_deepSort _ hdx
  have hy := dumpVal_deepSort _ hdy
  constructor
  · show dumpVal (PyVal.vdict x) = dumpVal (PyVal.vdict y)
    rw [← hx, ← hy, hxy]
  · intro hnx
    show dumpVal (PyVal.vdict x) = dumpVal (PyVal.vdict (normalizePayload x))
    have hn : normVal (PyVal.vdict x) = deepSortVal (PyVal.vdict x) := normVal_deepSort _ hnx
    rw [← hx, ← hn]
    rfl

/-- Witness for C9: the two-key payload written in the orders `b,a` and `a,b`
serializes identically and normalization leaves its serialization unchanged;
a reordered pair carrying a `Decimal` leaf fails identically on both orders. -/
theorem canonical_json_stable_witness :
    (canonicalJson (PyVal.vdict (.cons "b" (.vint 2) (.cons "a" (.vint 1) .nil))) =
        canonicalJson (PyVal.vdict (.cons "a" (.vint 1) (.cons "b" (.vint 2) .nil))) ∧
      canonicalJson (PyVal.vdict (.cons "b" (.vint 2) (.cons "a" (.vint 1) .nil))) =
        canonicalJson (PyVal.vdict (normalizePayload
          (.cons "b" (.vint 2) (.cons "a" (.vint 1) .nil))))) ∧
      canonicalJson (PyVal.vdict (.cons "b" (.vdec ⟨false, 1, 0⟩) (.cons "a" (.vint 1) .nil))) =
        canonicalJson (PyVal.vdict (.cons "a" (.vint 1) (.cons "b" (.vdec ⟨false, 1, 0⟩) .nil))) :=
  ⟨⟨(canonical_json_stable (.cons "b" (.vint 2) (.cons "a" (.vint 1) .nil))
      (.cons "a" (.vint 1) (.cons "b" (.vint 2) .nil))
      (by decide) (by decide) (by decide)).1,
    (canonical_json_stable (.cons "b" (.vint 2) (.cons "a" (.vint 1) .nil))
      (.cons "a" (.vint 1) (.cons "b" (.vint 2) .nil))
      (by decide) (by decide) (by decide)).2 (by decide)⟩,
   (canonical_json_stable (.cons "b" (.vdec ⟨false, 1, 0⟩) (.cons "a" (.vint 1) .nil))
      (.cons "a" (.vint 1) (.cons "b" (.vdec ⟨false, 1, 0⟩) .nil))
      (by decide) (by decide) (by decide)).1⟩

/-- Counterexample for C9 as stated: on the payload holding the float `-0.0`
the serializer emits `-0.0` while `normalize_payload` rewrites the value to
`0.0`, so `canonical_json(x)` differs from `canonical_json(normalize_payload(x))`
even though `-0.0 == 0.0` numerically — the spec's unconditional stability
claim fails. -/
theorem canonical_json_norm_cex :
    canonicalJson (PyVal.vdict (.cons "a" (.vfloat ⟨true, 0, ['0']⟩) .nil)) ≠
      canonicalJson (PyVal.vdict (normalizePayload
        (.cons "a" (.vfloat ⟨true, 0, ['0']⟩) .nil))) := by
  decide

end Tessrax
